import Mathlib

/-!
Shallow embedding of `banknifty_oi_monitor.py` (the single source file of the
repository).  Python floats are modelled as exact rationals (`ℚ`), open
interest and volumes as integers (`ℤ`), timestamps as rational minutes.
Dictionary state (`baseline["data"]`, keyed by the string `f"{opt}_{strike}"`)
is modelled as a function from the structured key `(option side, strike)` to
`Option Entry`; the string keys of the source are in bijection with these
pairs.  Network fetches (`get_banknifty_spot`, the option-chain call) are
modelled by `Option`-valued inputs to `scan`: `none` is a fetch that failed
after its bounded retries.  Telegram delivery, printing and the score log are
pure observations here (returned lists); `migrate_baseline_if_needed` is the
identity on this typed model since every `Entry` field is always present.
-/

/-- Option side of a contract (`option_type` column, `"CE"` / `"PE"`). -/
inductive OptType
  | CE
  | PE
deriving DecidableEq, Repr

/-- Lifecycle state of a contract (`entry["state"]`). -/
inductive LState
  | NONE
  | WATCH
  | EXECUTED
deriving DecidableEq, Repr

/-- Numeric rank of a lifecycle state, used to express monotonicity. -/
def stVal : LState → Nat
  | LState.NONE => 0
  | LState.WATCH => 1
  | LState.EXECUTED => 2

/-- `stateLe a b`: lifecycle state `b` is at least as far along as `a`. -/
def stateLe (a b : LState) : Prop := stVal a ≤ stVal b

instance : DecidablePred fun p : LState × LState => stateLe p.1 p.2 := by
  intro p; unfold stateLe; infer_instance

instance (a b : LState) : Decidable (stateLe a b) := by
  unfold stateLe; infer_instance

/-- The opposite option side (`opp_opt = "PE" if opt == "CE" else "CE"`). -/
def oppOf : OptType → OptType
  | OptType.CE => OptType.PE
  | OptType.PE => OptType.CE

/-- ContractKey: structured form of the source's dict key `f"{opt}_{strike}"`. -/
abbrev Key := OptType × ℤ

-- ================= CONFIG (module-level constants of the source) =================

def MIN_BASE_OI : ℤ := 2000
def STRIKE_RANGE : ℤ := 200
def WATCH_OI_PCT : ℚ := 120
def EXEC_OI_PCT : ℚ := 200
def SPOT_MOVE_PCT : ℚ := 3/10
def VOL_MULTIPLIER : ℚ := 3/2
def OI_BOTH_SIDES_AVOID : ℚ := 180
def PREMIUM_MAX_RISE : ℚ := 8
def MIN_DECLINE_PCT : ℚ := -3/2
/-- `CONVICTION_THRESHOLDS[CONVICTION_MODE]` for the default mode `BALANCED`
(the mode is read from the environment once at start; we fix the default). -/
def MIN_CONVICTION_SCORE_BASE : ℤ := 90
def MAX_SIGNALS_PER_DAY : Nat := 3
def MAX_WATCH_PER_DAY : Nat := 3
def SCORE_IMPROVEMENT_THRESHOLD : ℤ := 10

-- ================= DATA MODEL =================

/-- Per-contract persisted record (one value of `baseline["data"]`). -/
structure Entry where
  base_oi : ℤ
  base_ltp : ℚ
  base_vol : ℤ
  prev_oi : ℤ
  state : LState
  first_exec_time : Option ℚ
  scan_count : Nat
  decline_streak : Nat
deriving DecidableEq, Repr

/-- The `baseline["data"]` dictionary. -/
abbrev Data := Key → Option Entry

/-- Point update of the data dictionary (`baseline["data"][key] = e`). -/
def updKey (d : Data) (k : Key) (e : Entry) : Data :=
  fun k2 => if k2 = k then some e else d k2

/-- One record of `daily_signals` (presentational `time` field omitted). -/
structure SignalRecord where
  strike : ℤ
  opt_type : OptType
  score : ℤ
  tier : String
deriving DecidableEq, Repr

/-- The persisted Baseline Store record (`bn_baseline_oi.json`). -/
structure Baseline where
  date : Option String
  started : Bool
  day_open : Option ℚ
  data : Data
  signals_today : Nat
  watch_today : Nat
  daily_signals : List SignalRecord

/-- One option-chain row after the dataframe's per-row field extraction
(rows whose `option_type` is neither `"CE"` nor `"PE"` are dropped by the
source's guard and are not representable here; the `strike == 0` guard is
kept explicitly). -/
structure Row where
  strike : ℤ
  opt : OptType
  oi : ℤ
  ltp : ℚ
  vol : ℤ
deriving DecidableEq, Repr

/-- The entry created by `baseline["data"].setdefault(key, {...})`. -/
def initEntry (r : Row) : Entry :=
  { base_oi := r.oi
    base_ltp := r.ltp
    base_vol := r.vol
    prev_oi := r.oi
    state := LState.NONE
    first_exec_time := none
    scan_count := 0
    decline_streak := 0 }

-- ================= DERIVED CONFIG FUNCTIONS =================

/-- Dynamic minimum conviction score by days-to-expiry (lines 614–626). -/
def minConvictionScore (days : ℤ) : ℤ :=
  if days > 20 then 110
  else if days > 10 then MIN_CONVICTION_SCORE_BASE
  else if days > 4 then 100
  else 120

/-- Dynamic premium tolerance by absolute spot move (lines 633–642). -/
def premiumTolerance (absSpotMove : ℚ) : ℚ :=
  if absSpotMove ≥ 1/2 then 15
  else if absSpotMove ≥ 3/10 then 10
  else PREMIUM_MAX_RISE

/-- Python's `round` (banker's rounding, ties to even), used for the ATM
strike `int(round(spot / 100) * 100)`. -/
def pyRound (q : ℚ) : ℤ :=
  let f := ⌊q⌋
  let frac := q - f
  if frac < 1/2 then f
  else if frac > 1/2 then f + 1
  else if f % 2 = 0 then f else f + 1

-- ================= CONVICTION SCORING HELPERS =================

/-- `calculate_buildup_time` (lines 269–279): minutes since the execution
threshold was first crossed; times are already rational minutes here. -/
def calculate_buildup_time (e : Entry) (tNow : ℚ) : ℚ :=
  match e.first_exec_time with
  | some t => max 0 (tNow - t)
  | none => 0

/-- `check_adjacent_cluster` (lines 281–310): counts of adjacent strikes with
same-side buildup (≥ 70 % of threshold) and opposite-side decline (< −5 %). -/
def check_adjacent_cluster (strike : ℤ) (opt : OptType)
    (soc : ℤ → OptType → ℚ) (exec_threshold : ℚ) : Nat × Nat :=
  ([-200, -100, 100, 200] : List ℤ).foldl
    (fun acc off =>
      let adj := strike + off
      let same := if soc adj opt ≥ exec_threshold * (7/10) then acc.1 + 1 else acc.1
      let oppc := if soc adj (oppOf opt) < -5 then acc.2 + 1 else acc.2
      (same, oppc))
    (0, 0)

/-- `calculate_conviction_score` (lines 312–503), the integer score part.
The tier/emoji/detail strings are presentational; the tier cut is
`convictionTier` below.  `oi_pct` is received but not used by the scorer in
the source, so it is not a parameter here. -/
def calculate_conviction_score (strike : ℤ) (opt : OptType)
    (opp_decline_pct vol_multiplier buildup_time_mins : ℚ)
    (scan_count decline_streak : Nat) (spot_move_pct exec_threshold ltp_change_pct : ℚ)
    (atm : ℤ) (soc : ℤ → OptType → ℚ) : ℤ :=
  let sd := |strike - atm|
  let aPts : ℤ := if sd ≤ 50 then 30 else if sd ≤ 100 then 20 else if sd ≤ 150 then 10 else 0
  let bPts : ℤ :=
    if vol_multiplier ≥ 3 then 20
    else if vol_multiplier ≥ 2 then 10
    else if vol_multiplier ≥ 3/2 then 5 else 0
  let cPts : ℤ :=
    if buildup_time_mins ≤ 30 then 25
    else if buildup_time_mins ≤ 60 then 15
    else if buildup_time_mins ≤ 120 then 5 else 0
  let oda := |opp_decline_pct|
  let dPts : ℤ := if oda ≥ 10 then 25 else if oda ≥ 5 then 15 else if oda ≥ 3/2 then 5 else 0
  let d2Pts : ℤ := if decline_streak ≥ 3 then 20 else if decline_streak ≥ 2 then 10 else 0
  let ePts : ℤ :=
    match opt with
    | OptType.CE =>
        if spot_move_pct ≤ -1/2 then 30
        else if spot_move_pct ≤ -3/10 then 20
        else if spot_move_pct < 0 then 10 else -20
    | OptType.PE =>
        if spot_move_pct ≥ 1/2 then 30
        else if spot_move_pct ≥ 3/10 then 20
        else if spot_move_pct > 0 then 10 else -20
  let fPts : ℤ := if scan_count ≥ 3 then 15 else if scan_count ≥ 2 then 10 else 0
  let adj := check_adjacent_cluster strike opt soc exec_threshold
  let gPts : ℤ :=
    if adj.1 ≥ 3 ∨ adj.2 ≥ 2 then 20
    else if adj.1 ≥ 2 ∨ adj.2 ≥ 1 then 10 else 0
  let hPts : ℤ :=
    if ltp_change_pct ≤ -5 then 15
    else if ltp_change_pct ≤ 0 then 10
    else if ltp_change_pct ≤ 5 then 5
    else if ltp_change_pct ≤ PREMIUM_MAX_RISE then 0 else -10
  aPts + bPts + cPts + dPts + d2Pts + ePts + fPts + gPts + hPts

/-- Tier classification of a conviction score (lines 489–501, emoji dropped). -/
def convictionTier (score : ℤ) : String :=
  if score ≥ 120 then "PREMIUM"
  else if score ≥ 90 then "HIGH"
  else if score ≥ 60 then "MEDIUM"
  else "LOW"

-- ================= PER-SCAN ENVIRONMENT AND STATE =================

/-- Values fixed for the duration of one scan before the main per-row loop:
ATM strike, intraday spot move, dynamic tolerances, time-of-day gate, the
pre-computed `strike_oi_changes` map (`soc`, defaulting to 0 like the
source's nested `.get(..., 0)`) and `current_oi_map` (`cur_oi`, default 0). -/
structure Env where
  atm : ℤ
  spot_move_pct : ℚ
  premium_tol : ℚ
  min_score : ℤ
  after_entry : Bool
  tNow : ℚ
  days_to_expiry : ℤ
  soc : ℤ → OptType → ℚ
  cur_oi : ℤ → OptType → ℤ

/-- A candidate execution signal (`buildup_data` dict, lines 817–853).
The trade-suggestion fields added at lines 881–891 are presentational. -/
structure Buildup where
  strike : ℤ
  opt_type : OptType
  oi_pct : ℚ
  ltp_change_pct : ℚ
  vol_multiplier : ℚ
  opp_decline_pct : ℚ
  decline_streak : Nat
  buildup_time_mins : ℚ
  scan_count : Nat
  spot_move_pct : ℚ
  conviction_score : ℤ
  tier : String
deriving DecidableEq, Repr

/-- Contract key of a candidate. -/
def buKey (bu : Buildup) : Key := (bu.opt_type, bu.strike)

/-- Mutable state threaded through the main per-row loop (lines 682–685):
the data dict, the WATCH counter, the WATCH notifications actually sent
(observing suppression), and the collected CE/PE candidates. -/
structure ScanSt where
  data : Data
  watch_today : Nat
  watch_alerts : List (OptType × ℤ)
  ce_buildups : List Buildup
  pe_buildups : List Buildup

-- ================= PRE-COMPUTE PASS (lines 656–680) =================

/-- One row of the `strike_oi_changes` pre-compute loop. -/
def socStep (d : Data) (m : ℤ → OptType → ℚ) (r : Row) : ℤ → OptType → ℚ :=
  if r.strike = 0 then m
  else
    match d (r.opt, r.strike) with
    | none => m
    | some e =>
      if e.base_oi < MIN_BASE_OI then m
      else
        let pct : ℚ := if e.base_oi > 0 then (((r.oi : ℚ) - e.base_oi) / e.base_oi) * 100 else 0
        fun s o => if s = r.strike ∧ o = r.opt then pct else m s o

/-- `strike_oi_changes`: OI% change vs. baseline per (strike, side), for sides
already tracked with `base_oi ≥ MIN_BASE_OI`; absent cells read as 0. -/
def strikeOIChanges (d : Data) (rows : List Row) : ℤ → OptType → ℚ :=
  rows.foldl (socStep d) (fun _ _ => 0)

/-- One row of the `current_oi_map` pre-compute loop. -/
def curOIStep (m : ℤ → OptType → ℤ) (r : Row) : ℤ → OptType → ℤ :=
  if r.strike = 0 then m
  else fun s o => if s = r.strike ∧ o = r.opt then r.oi else m s o

/-- `current_oi_map`: current OI per (strike, side); absent cells read as 0. -/
def currentOIMap (rows : List Row) : ℤ → OptType → ℤ :=
  rows.foldl curOIStep (fun _ _ => 0)

-- ================= MAIN LOOP BLOCKS =================

/-- WATCH block (lines 717–745): on `oi_pct ≥ WATCH_OI_PCT` in state NONE,
the notification is gated on conflict / distance / daily cap, but the state
is set to WATCH regardless.  Returns (entry, watch counter, alerts sent). -/
def watchBlock (env : Env) (strike : ℤ) (opt : OptType) (oi_pct : ℚ) (e : Entry)
    (watch_today : Nat) (alerts : List (OptType × ℤ)) :
    Entry × Nat × List (OptType × ℤ) :=
  if oi_pct ≥ WATCH_OI_PCT ∧ e.state = LState.NONE then
    let conflicted := env.soc strike OptType.CE ≥ OI_BOTH_SIDES_AVOID ∧
      env.soc strike OptType.PE ≥ OI_BOTH_SIDES_AVOID
    let too_far_otm := |strike - env.atm| > 150
    let watch_limit_hit := watch_today ≥ MAX_WATCH_PER_DAY
    if ¬conflicted ∧ ¬too_far_otm ∧ ¬watch_limit_hit then
      ({ e with state := LState.WATCH }, watch_today + 1, alerts ++ [(opt, strike)])
    else
      ({ e with state := LState.WATCH }, watch_today, alerts)
  else (e, watch_today, alerts)

/-- Buildup-time tracking block (lines 747–760). -/
def trackBlock (tNow : ℚ) (oi_pct : ℚ) (e : Entry) : Entry :=
  if oi_pct ≥ EXEC_OI_PCT then
    match e.first_exec_time with
    | none => { e with first_exec_time := some tNow, scan_count := 1 }
    | some _ => { e with scan_count := e.scan_count + 1 }
  else
    match e.first_exec_time with
    | some _ => { e with first_exec_time := none, scan_count := 0 }
    | none => e

/-- The opposite side's OI% decline vs. its own `prev_oi` (line 800). -/
def oppDeclinePct (opp_current_oi opp_prev_oi : ℤ) : ℚ :=
  if opp_prev_oi > 0 then (((opp_current_oi : ℚ) - opp_prev_oi) / opp_prev_oi) * 100
  else 0

/-- `is_covering` (line 801): the opposite side's OI fell and the fall is at
least the minimum decline percentage. -/
def isCovering (opp_current_oi opp_prev_oi : ℤ) : Prop :=
  opp_current_oi < opp_prev_oi ∧ oppDeclinePct opp_current_oi opp_prev_oi ≤ MIN_DECLINE_PCT

instance (a b : ℤ) : Decidable (isCovering a b) := by
  unfold isCovering; infer_instance

/-- The candidate buildup assembled at lines 817–853 on success. -/
def mkBuildup (env : Env) (strike : ℤ) (opt : OptType)
    (oi_pct ltp_change_pct vol_multiplier : ℚ) (e : Entry) (streak2 : Nat)
    (opp_decline_pct : ℚ) (score : ℤ) : Buildup :=
  { strike := strike
    opt_type := opt
    oi_pct := oi_pct
    ltp_change_pct := ltp_change_pct
    vol_multiplier := vol_multiplier
    opp_decline_pct := opp_decline_pct
    decline_streak := streak2
    buildup_time_mins := calculate_buildup_time e env.tNow
    scan_count := e.scan_count
    spot_move_pct := env.spot_move_pct
    conviction_score := score
    tier := convictionTier score }

/-- The conviction score computed for a candidate whose covering check just
passed (the scorer call at lines 833–835, with the streak already
incremented). -/
def covScore (env : Env) (strike : ℤ) (opt : OptType)
    (ltp_change_pct vol_multiplier : ℚ) (e oppE : Entry) : ℤ :=
  calculate_conviction_score strike opt
    (oppDeclinePct (env.cur_oi strike (oppOf opt)) oppE.prev_oi) vol_multiplier
    (calculate_buildup_time e env.tNow) e.scan_count (oppE.decline_streak + 1)
    env.spot_move_pct EXEC_OI_PCT ltp_change_pct env.atm env.soc

/-- Tail of the execution evaluation, from the covering check on
(lines 794–862): streak bookkeeping, conviction scoring and the final
EXECUTED transition. -/
def coveringEval (env : Env) (d : Data) (strike : ℤ) (opt : OptType)
    (oi_pct ltp_change_pct vol_multiplier : ℚ) (e oppE : Entry) : Data × Option Buildup :=
  if env.cur_oi strike (oppOf opt) = 0 then (d, none)
  else if ¬isCovering (env.cur_oi strike (oppOf opt)) oppE.prev_oi then
    (updKey d (oppOf opt, strike) { oppE with decline_streak := 0 }, none)
  else if covScore env strike opt ltp_change_pct vol_multiplier e oppE < env.min_score then
    (updKey d (oppOf opt, strike) { oppE with decline_streak := oppE.decline_streak + 1 }, none)
  else
    (updKey
      (updKey d (oppOf opt, strike) { oppE with decline_streak := oppE.decline_streak + 1 })
      (opt, strike) { e with state := LState.EXECUTED },
      some (mkBuildup env strike opt oi_pct ltp_change_pct vol_multiplier e
        (oppE.decline_streak + 1)
        (oppDeclinePct (env.cur_oi strike (oppOf opt)) oppE.prev_oi)
        (covScore env strike opt ltp_change_pct vol_multiplier e oppE)))

/-- WATCH → EXECUTED evaluation (lines 766–862).  `d` must already hold the
current entry at `(opt, strike)`.  Returns the updated data dict and the
candidate buildup if all gates pass (in which case the entry's state is set
to EXECUTED); on any failing gate no candidate is produced and only the
opposite entry's `decline_streak` may have been written (gate 6). -/
def execEval (env : Env) (d : Data) (strike : ℤ) (opt : OptType)
    (oi_pct ltp_change_pct vol_multiplier : ℚ) : Data × Option Buildup :=
  match d (opt, strike) with
  | none => (d, none)
  | some e =>
    if ¬(oi_pct ≥ EXEC_OI_PCT ∧ ltp_change_pct ≤ env.premium_tol ∧ e.state = LState.WATCH) then
      (d, none)
    else if ¬env.after_entry then (d, none)
    else if |env.spot_move_pct| < SPOT_MOVE_PCT ∨ vol_multiplier < VOL_MULTIPLIER then (d, none)
    else if env.soc strike OptType.CE ≥ OI_BOTH_SIDES_AVOID ∧
        env.soc strike OptType.PE ≥ OI_BOTH_SIDES_AVOID then (d, none)
    else
      match d (oppOf opt, strike) with
      | none => (d, none)
      | some oppE => coveringEval env d strike opt oi_pct ltp_change_pct vol_multiplier e oppE

/-- `oi_pct` (line 712): OI% change of the row versus the stored baseline. -/
def oiPct (oi base_oi : ℤ) : ℚ :=
  (((oi : ℚ) - base_oi) / (base_oi : ℚ)) * 100

/-- `ltp_change_pct` (line 713): premium change versus baseline premium. -/
def ltpChangePct (ltp base_ltp : ℚ) : ℚ :=
  if base_ltp > 0 then ((ltp - base_ltp) / base_ltp) * 100 else 0

/-- `vol_multiplier` (line 714): volume versus baseline volume. -/
def volMult (vol base_vol : ℤ) : ℚ :=
  if base_vol > 0 then (vol : ℚ) / (base_vol : ℚ) else 1

/-- The candidate appended to one side's buildup list by this row
(lines 856–859): the emitted candidate when this row's side is `side`,
nothing otherwise. -/
def sideEmits (side opt : OptType) (ob : Option Buildup) : List Buildup :=
  match ob with
  | none => []
  | some bu => if opt = side then [bu] else []

/-- One iteration of the main per-row loop (lines 687–862). -/
def processRow (env : Env) (st : ScanSt) (r : Row) : ScanSt :=
  if r.strike = 0 then st
  else
    let key : Key := (r.opt, r.strike)
    let e0 := (st.data key).getD (initEntry r)
    let data0 := updKey st.data key e0
    if e0.base_oi < MIN_BASE_OI then { st with data := data0 }
    else
      let oi_pct : ℚ := oiPct r.oi e0.base_oi
      let ltp_change_pct : ℚ := ltpChangePct r.ltp e0.base_ltp
      let vol_multiplier : ℚ := volMult r.vol e0.base_vol
      let w := watchBlock env r.strike r.opt oi_pct e0 st.watch_today st.watch_alerts
      let e2 := trackBlock env.tNow oi_pct w.1
      let data2 := updKey data0 key e2
      if e2.state = LState.EXECUTED then
        { st with data := data2, watch_today := w.2.1, watch_alerts := w.2.2 }
      else
        let ex := execEval env data2 r.strike r.opt oi_pct ltp_change_pct vol_multiplier
        { st with
          data := ex.1
          watch_today := w.2.1
          watch_alerts := w.2.2
          ce_buildups := st.ce_buildups ++ sideEmits OptType.CE r.opt ex.2
          pe_buildups := st.pe_buildups ++ sideEmits OptType.PE r.opt ex.2 }

/-- The whole main loop. -/
def processRows (env : Env) (st : ScanSt) (rows : List Row) : ScanSt :=
  rows.foldl (processRow env) st

/-- One row of the `prev_oi` write-back loop. -/
def prevStep (d2 : Data) (r : Row) : Data :=
  if r.strike = 0 then d2
  else
    match d2 (r.opt, r.strike) with
    | none => d2
    | some e => updKey d2 (r.opt, r.strike) { e with prev_oi := r.oi }

/-- The `prev_oi` write-back loop (lines 864–876). -/
def prevLoop (rows : List Row) (d : Data) : Data :=
  rows.foldl prevStep d

-- ================= DAILY SIGNAL MANAGEMENT (lines 506–539) =================

/-- `min(s["score"] for s in daily_signals)` (0 on an empty list, which the
source never reaches because of its preceding emptiness check). -/
def minScoreOf : List SignalRecord → ℤ
  | [] => 0
  | s :: rest => rest.foldl (fun a rec2 => min a rec2.score) s.score

/-- `should_send_signal` (lines 506–522). -/
def should_send_signal (b : Baseline) (new_signal_score : ℤ) : Bool × String :=
  if b.signals_today < MAX_SIGNALS_PER_DAY then (true, "UNDER_LIMIT")
  else if b.daily_signals = [] then (true, "FIRST_SIGNAL")
  else if new_signal_score > minScoreOf b.daily_signals + SCORE_IMPROVEMENT_THRESHOLD then
    (true, "REPLACES_LOWER")
  else (false, "REJECTED")

/-- The `daily_signals` record built from a sent buildup (its presentational
`time` field is dropped). -/
def mkSignalRecord (bu : Buildup) : SignalRecord :=
  { strike := bu.strike
    opt_type := bu.opt_type
    score := bu.conviction_score
    tier := bu.tier }

/-- Descending-by-score comparison used by `sorted(..., reverse=True)`. -/
def scoreGe (a b : SignalRecord) : Bool := decide (b.score ≤ a.score)

/-- `record_signal` (lines 524–539): count the signal, append its record,
re-sort descending by score and keep the top `MAX_SIGNALS_PER_DAY`. -/
def record_signal (b : Baseline) (bu : Buildup) : Baseline :=
  { b with
    signals_today := b.signals_today + 1
    daily_signals :=
      ((b.daily_signals ++ [mkSignalRecord bu]).mergeSort scoreGe).take MAX_SIGNALS_PER_DAY }

/-- Descending-by-score comparison for candidate buildups (line 894). -/
def buGe (a b : Buildup) : Bool := decide (b.conviction_score ≤ a.conviction_score)

/-- The alert loop (lines 897–938): for each candidate in descending score
order, consult `should_send_signal`; on acceptance dispatch the alert and
`record_signal` it, otherwise only log.  Returns the final baseline and the
list of sent alerts. -/
def alertStep (acc : Baseline × List Buildup) (bu : Buildup) : Baseline × List Buildup :=
  if (should_send_signal acc.1 bu.conviction_score).1 then
    (record_signal acc.1 bu, acc.2 ++ [bu])
  else acc

def alertLoop (b : Baseline) (cands : List Buildup) : Baseline × List Buildup :=
  cands.foldl alertStep (b, [])

-- ================= DAY RESET AND SCAN (lines 225–237, 542–945) =================

/-- `reset_day` (lines 225–237). -/
def reset_day (today : String) (b : Baseline) : Baseline :=
  if b.date = some today then b
  else
    { date := some today
      started := false
      day_open := none
      data := fun _ => none
      signals_today := 0
      watch_today := 0
      daily_signals := [] }

/-- Result of an option-chain fetch that succeeded: the rows (for the
selected expiry, cf. the symbol filter at line 646) and the
days-to-expiry of the nearest valid expiry (`none` when `get_monthly_expiry`
finds no valid expiry). -/
structure Chain where
  rows : List Row
  expiryDays : Option ℤ

/-- Observable outcome of one `scan()` invocation: the persisted baseline
(the in-memory record; `save_baseline` writes exactly this content whenever
`updated` is set, and when it is not set the content equals what is already
on disk), the alerts actually dispatched, and the scored candidate list
handed to the Signal Selector. -/
structure ScanOut where
  b : Baseline
  sent : List Buildup
  candidates : List Buildup

/-- The per-contract part of one scan (lines 652–945 minus the fetches): the
main loop over the filtered rows, the `prev_oi` write-back, and the alert
loop over the score-sorted candidates. -/
def scanCore (env : Env) (frows : List Row) (b3 : Baseline) : ScanOut :=
  let st1 := processRows env
    { data := b3.data
      watch_today := b3.watch_today
      watch_alerts := []
      ce_buildups := []
      pe_buildups := [] } frows
  let d2 := prevLoop frows st1.data
  let b4 := { b3 with data := d2, watch_today := st1.watch_today }
  let cands := (st1.ce_buildups ++ st1.pe_buildups).mergeSort buGe
  let fin := alertLoop b4 cands
  ⟨fin.1, fin.2, cands⟩

/-- `scan()` (lines 542–945).  `today` is the current IST date,
`inWindow` = `is_trading_window()`, `after_entry` = `after_bn_entry_time()`,
`tNow` the current time in minutes, `spotStartup` / `spotMain` the results of
the two `get_banknifty_spot()` call sites, `chain` the option-chain fetch
(`none` = failed after retries, including a non-ok status).
`CHECK_MARKET_HOURS` is `False` in the source, so the market-open check is
skipped. -/
def scan (today : String) (inWindow after_entry : Bool) (tNow : ℚ)
    (spotStartup spotMain : Option ℚ) (chain : Option Chain) (b0 : Baseline) : ScanOut :=
  let b1 := reset_day today b0
  if ¬b1.started ∧ spotStartup = none then ⟨b1, [], []⟩
  else
    let b2 := if b1.started then b1 else { b1 with started := true }
    if ¬inWindow then ⟨b2, [], []⟩
    else
      match spotMain with
      | none => ⟨b2, [], []⟩
      | some spot =>
        let b3 := if b2.day_open = none then { b2 with day_open := some spot } else b2
        let atm := pyRound (spot / 100) * 100
        match chain with
        | none => ⟨b3, [], []⟩
        | some c =>
          if c.rows = [] then ⟨b3, [], []⟩
          else
            match c.expiryDays with
            | none => ⟨b3, [], []⟩
            | some days =>
              let min_score := minConvictionScore days
              let spot_move_pct : ℚ :=
                match b3.day_open with
                | some o => if o ≠ 0 then ((spot - o) / o) * 100 else 0
                | none => 0
              let ptol := premiumTolerance |spot_move_pct|
              let frows := c.rows.filter
                (fun r => atm - STRIKE_RANGE ≤ r.strike ∧ r.strike ≤ atm + STRIKE_RANGE ∧
                  r.strike % 100 = 0)
              let env : Env :=
                { atm := atm
                  spot_move_pct := spot_move_pct
                  premium_tol := ptol
                  min_score := min_score
                  after_entry := after_entry
                  tNow := tNow
                  days_to_expiry := days
                  soc := strikeOIChanges b3.data frows
                  cur_oi := currentOIMap frows }
              scanCore env frows b3

/-- The per-invocation inputs of one scan other than the persisted baseline. -/
structure ScanIn where
  inWindow : Bool
  after_entry : Bool
  tNow : ℚ
  spotStartup : Option ℚ
  spotMain : Option ℚ
  chain : Option Chain

/-- One scan applied to a baseline. -/
def scanStep (today : String) (b : Baseline) (i : ScanIn) : ScanOut :=
  scan today i.inWindow i.after_entry i.tNow i.spotStartup i.spotMain i.chain b

/-- One scan applied to an accumulator of (baseline, alerts sent so far). -/
def runStep (today : String) (acc : Baseline × List Buildup) (i : ScanIn) :
    Baseline × List Buildup :=
  ((scanStep today acc.1 i).b, acc.2 ++ (scanStep today acc.1 i).sent)

/-- A sequence of scans on one trading day, accumulating sent alerts. -/
def runScans (today : String) (b : Baseline) (ins : List ScanIn) : Baseline × List Buildup :=
  ins.foldl (runStep today) (b, [])

-- ================= CONCRETE FIXTURES =================

def wDay : String := "2026-01-05"

def wKey : Key := (OptType.CE, 45000)

def wEntryExec : Entry :=
  { base_oi := 5000, base_ltp := 100, base_vol := 1000, prev_oi := 5000,
    state := LState.EXECUTED, first_exec_time := none, scan_count := 0, decline_streak := 0 }

def wEntryLow : Entry :=
  { base_oi := 1500, base_ltp := 100, base_vol := 1000, prev_oi := 1500,
    state := LState.NONE, first_exec_time := none, scan_count := 0, decline_streak := 0 }

def wData : Data :=
  updKey (updKey (fun _ => none) wKey wEntryExec) (OptType.PE, 45000) wEntryLow

def wBase : Baseline :=
  { date := some wDay, started := true, day_open := none, data := wData,
    signals_today := 0, watch_today := 0, daily_signals := [] }

def wIns : List ScanIn :=
  [{ inWindow := true, after_entry := true, tNow := 0, spotStartup := none,
     spotMain := none, chain := none }]

def wEnv : Env :=
  { atm := 45000, spot_move_pct := 0, premium_tol := 8, min_score := 90,
    after_entry := true, tNow := 0, days_to_expiry := 15,
    soc := fun _ _ => 0, cur_oi := fun _ _ => 0 }

def wSt : ScanSt :=
  { data := fun _ => none, watch_today := 0, watch_alerts := [],
    ce_buildups := [], pe_buildups := [] }

def wRow : Row := { strike := 45000, opt := OptType.CE, oi := 3000, ltp := 50, vol := 200 }

def w3Entry : Entry :=
  { base_oi := 2000, base_ltp := 50, base_vol := 100, prev_oi := 2000,
    state := LState.NONE, first_exec_time := none, scan_count := 0, decline_streak := 0 }

def w3St : ScanSt :=
  { data := updKey (fun _ => none) (OptType.CE, 45000) w3Entry, watch_today := 3,
    watch_alerts := [], ce_buildups := [], pe_buildups := [] }

def w3Row : Row := { strike := 45000, opt := OptType.CE, oi := 4500, ltp := 50, vol := 100 }

def w5EntryCE : Entry :=
  { base_oi := 2000, base_ltp := 50, base_vol := 100, prev_oi := 2000,
    state := LState.WATCH, first_exec_time := none, scan_count := 1, decline_streak := 0 }

def w5EntryPE : Entry :=
  { base_oi := 2000, base_ltp := 50, base_vol := 100, prev_oi := 2000,
    state := LState.WATCH, first_exec_time := none, scan_count := 1, decline_streak := 0 }

def w5Data : Data :=
  updKey (updKey (fun _ => none) (OptType.CE, 45000) w5EntryCE) (OptType.PE, 45000) w5EntryPE

def w5Rows : List Row :=
  [{ strike := 45000, opt := OptType.CE, oi := 6000, ltp := 50, vol := 200 },
   { strike := 45000, opt := OptType.PE, oi := 6000, ltp := 50, vol := 200 }]

def w5Base : Baseline :=
  { date := some wDay, started := true, day_open := some 45000, data := w5Data,
    signals_today := 0, watch_today := 0, daily_signals := [] }

def w5Env : Env :=
  { atm := 45000, spot_move_pct := 1, premium_tol := 15, min_score := 90,
    after_entry := true, tNow := 0, days_to_expiry := 15,
    soc := strikeOIChanges w5Base.data w5Rows, cur_oi := currentOIMap w5Rows }

def wIn2 : ScanIn :=
  { inWindow := true, after_entry := true, tNow := 0, spotStartup := none,
    spotMain := none, chain := none }

/-- The per-scan `decline_streak` update rule of lines 801–810: a qualifying
covering scan increments the streak, any other evaluated scan resets it. -/
def declineStreakFold (coverings : List Bool) (s : Nat) : Nat :=
  coverings.foldl (fun acc c => if c then acc + 1 else 0) s

def w6E : Entry :=
  { base_oi := 2000, base_ltp := 50, base_vol := 100, prev_oi := 2000,
    state := LState.WATCH, first_exec_time := none, scan_count := 1, decline_streak := 0 }

def w6Opp : Entry :=
  { base_oi := 2000, base_ltp := 50, base_vol := 100, prev_oi := 1000,
    state := LState.NONE, first_exec_time := none, scan_count := 0, decline_streak := 2 }

def w6D : Data :=
  updKey (updKey (fun _ => none) (OptType.CE, 45000) w6E) (OptType.PE, 45000) w6Opp

def w6Env : Env :=
  { atm := 45000, spot_move_pct := 1, premium_tol := 15, min_score := 90,
    after_entry := true, tNow := 0, days_to_expiry := 15,
    soc := fun _ _ => 0,
    cur_oi := fun s o => if s = 45000 ∧ o = OptType.PE then 900 else 0 }

def c4Opp : Entry :=
  { base_oi := 2000, base_ltp := 50, base_vol := 100, prev_oi := 1000,
    state := LState.NONE, first_exec_time := none, scan_count := 0, decline_streak := 2 }

def c4D : Data :=
  updKey (updKey (fun _ => none) (OptType.CE, 45000) w6E) (OptType.PE, 45000) c4Opp

def c4Env : Env :=
  { atm := 45000, spot_move_pct := 1, premium_tol := 15, min_score := 90,
    after_entry := true, tNow := 0, days_to_expiry := 15,
    soc := fun _ _ => 0,
    cur_oi := fun s o => if s = 45000 ∧ o = OptType.PE then 2000 else 0 }

def cb9 : Baseline :=
  { date := some "D", started := true, day_open := none, data := fun _ => none,
    signals_today := 0, watch_today := 0, daily_signals := [] }

def cb9b : Baseline :=
  { date := some "D", started := false, day_open := none, data := fun _ => none,
    signals_today := 0, watch_today := 0, daily_signals := [] }

def cb7 : Baseline :=
  { date := some "D", started := true, day_open := none, data := fun _ => none,
    signals_today := 3, watch_today := 0,
    daily_signals := [⟨45000, OptType.CE, 95, "VERY_HIGH"⟩, ⟨45100, OptType.PE, 80, "HIGH"⟩,
      ⟨45200, OptType.CE, 70, "MEDIUM"⟩] }

def bu7 : Buildup :=
  { strike := 45300, opt_type := OptType.PE, oi_pct := 220, ltp_change_pct := 2,
    vol_multiplier := 2, opp_decline_pct := -5, decline_streak := 1,
    buildup_time_mins := 30, scan_count := 4, spot_move_pct := 1,
    conviction_score := 81, tier := "HIGH" }

def b7u : Baseline :=
  { date := some "D", started := true, day_open := none, data := fun _ => none,
    signals_today := 0, watch_today := 0, daily_signals := [] }

-- ================= BASIC LEMMAS =================

theorem stateLe_refl (a : LState) : stateLe a a := le_refl _

theorem stateLe_trans (a b c : LState) (h1 : stateLe a b) (h2 : stateLe b c) : stateLe a c :=
  le_trans h1 h2

theorem stateLe_none (a : LState) : stateLe LState.NONE a := by
  cases a <;> decide

theorem stateLe_executed (a : LState) (h : stateLe LState.EXECUTED a) : a = LState.EXECUTED := by
  cases a <;> first | rfl | exact absurd h (by decide)

theorem oppOf_ne (o : OptType) : oppOf o ≠ o := by cases o <;> decide

theorem updKey_self (d : Data) (k : Key) (e : Entry) : updKey d k e k = some e := by
  simp [updKey]

theorem updKey_other (d : Data) (k k2 : Key) (e : Entry) (h : k2 ≠ k) :
    updKey d k e k2 = d k2 := by
  simp [updKey, h]

-- ================= BLOCK-LEVEL LEMMAS =================

theorem watchBlock_entry (env : Env) (strike : ℤ) (opt : OptType) (oi_pct : ℚ) (e : Entry)
    (wt : Nat) (wa : List (OptType × ℤ)) :
    (watchBlock env strike opt oi_pct e wt wa).1 = e ∨
      (e.state = LState.NONE ∧
        (watchBlock env strike opt oi_pct e wt wa).1 = { e with state := LState.WATCH }) := by
  simp only [watchBlock]
  split_ifs with h1 h2
  · exact Or.inr ⟨h1.2, rfl⟩
  · exact Or.inr ⟨h1.2, rfl⟩
  · exact Or.inl rfl

theorem trackBlock_entry (tNow oi_pct : ℚ) (e : Entry) :
    ∃ fe sc, trackBlock tNow oi_pct e = { e with first_exec_time := fe, scan_count := sc } := by
  unfold trackBlock
  split_ifs with h1
  · cases hf : e.first_exec_time with
    | none => exact ⟨some tNow, 1, rfl⟩
    | some t => exact ⟨some t, e.scan_count + 1, rfl⟩
  · cases hf : e.first_exec_time with
    | none => exact ⟨e.first_exec_time, e.scan_count, rfl⟩
    | some t => exact ⟨none, 0, rfl⟩

/-- Exhaustive description of the covering-check tail: nothing (opposite OI
missing), a streak reset (covering failed), a streak increment only (score
gate failed), or full success. -/
theorem coveringEval_cases (env : Env) (d : Data) (strike : ℤ) (opt : OptType)
    (oi_pct ltp_change_pct vol_multiplier : ℚ) (e oppE : Entry) :
    coveringEval env d strike opt oi_pct ltp_change_pct vol_multiplier e oppE = (d, none) ∨
    coveringEval env d strike opt oi_pct ltp_change_pct vol_multiplier e oppE =
      (updKey d (oppOf opt, strike) { oppE with decline_streak := 0 }, none) ∨
    coveringEval env d strike opt oi_pct ltp_change_pct vol_multiplier e oppE =
      (updKey d (oppOf opt, strike) { oppE with decline_streak := oppE.decline_streak + 1 },
        none) ∨
    (∃ bu, bu.strike = strike ∧ bu.opt_type = opt ∧
      coveringEval env d strike opt oi_pct ltp_change_pct vol_multiplier e oppE =
        (updKey
          (updKey d (oppOf opt, strike) { oppE with decline_streak := oppE.decline_streak + 1 })
          (opt, strike) { e with state := LState.EXECUTED }, some bu)) := by
  unfold coveringEval
  split_ifs with h1 h2 h3
  · exact Or.inl rfl
  · exact Or.inr (Or.inr (Or.inl rfl))
  · exact Or.inr (Or.inr (Or.inr ⟨_, rfl, rfl, rfl⟩))
  · exact Or.inr (Or.inl rfl)

/-- `coveringEval` leaves the candidate's own entry untouched. -/
theorem coveringEval_key (env : Env) (d : Data) (strike : ℤ) (opt : OptType)
    (oi_pct ltp_change_pct vol_multiplier : ℚ) (e oppE : Entry) :
    (coveringEval env d strike opt oi_pct ltp_change_pct vol_multiplier e oppE).2 = none →
    (coveringEval env d strike opt oi_pct ltp_change_pct vol_multiplier e oppE).1 (opt, strike) =
      d (opt, strike) := by
  intro hn
  rcases coveringEval_cases env d strike opt oi_pct ltp_change_pct vol_multiplier e oppE with
    h | h | h | ⟨bu, _, _, h⟩
  · rw [h]
  · rw [h]
    exact updKey_other _ _ _ _ (by simp [Prod.ext_iff, (oppOf_ne opt).symm])
  · rw [h]
    exact updKey_other _ _ _ _ (by simp [Prod.ext_iff, (oppOf_ne opt).symm])
  · rw [h] at hn
    exact absurd hn (by simp)

/-- Exhaustive description of one WATCH → EXECUTED evaluation: either a gate
before the covering check failed and nothing happened, or the entry exists in
WATCH state, the strike is unconflicted, and the covering tail ran. -/
theorem execEval_cases (env : Env) (d : Data) (strike : ℤ) (opt : OptType)
    (oi_pct ltp_change_pct vol_multiplier : ℚ) :
    execEval env d strike opt oi_pct ltp_change_pct vol_multiplier = (d, none) ∨
    (∃ e oppE, d (opt, strike) = some e ∧ e.state = LState.WATCH ∧
      d (oppOf opt, strike) = some oppE ∧
      ¬(env.soc strike OptType.CE ≥ OI_BOTH_SIDES_AVOID ∧
          env.soc strike OptType.PE ≥ OI_BOTH_SIDES_AVOID) ∧
      execEval env d strike opt oi_pct ltp_change_pct vol_multiplier =
        coveringEval env d strike opt oi_pct ltp_change_pct vol_multiplier e oppE) := by
  unfold execEval
  cases hk : d (opt, strike) with
  | none => exact Or.inl rfl
  | some e =>
    dsimp only
    split_ifs with h1 h2 h3 h4
    · exact Or.inl rfl
    · exact Or.inl rfl
    · cases ho : d (oppOf opt, strike) with
      | none => exact Or.inl rfl
      | some oppE =>
        exact Or.inr ⟨e, oppE, rfl, h1.2.2, rfl, h4, rfl⟩
    · exact Or.inl rfl
    · exact Or.inl rfl

theorem key_ne_oppKey (opt : OptType) (strike : ℤ) :
    ((opt, strike) : Key) ≠ (oppOf opt, strike) := by
  intro h
  exact (oppOf_ne opt) (congrArg Prod.fst h).symm

/-- `execEval` only ever writes the candidate's entry and the opposite entry. -/
theorem execEval_frame (env : Env) (d : Data) (strike : ℤ) (opt : OptType)
    (oi_pct ltp_change_pct vol_multiplier : ℚ) (k : Key)
    (hk1 : k ≠ (opt, strike)) (hk2 : k ≠ (oppOf opt, strike)) :
    (execEval env d strike opt oi_pct ltp_change_pct vol_multiplier).1 k = d k := by
  rcases execEval_cases env d strike opt oi_pct ltp_change_pct vol_multiplier with
    h | ⟨e, oppE, _, _, _, _, h⟩
  · rw [h]
  · rw [h]
    rcases coveringEval_cases env d strike opt oi_pct ltp_change_pct vol_multiplier e oppE with
      h2 | h2 | h2 | ⟨bu, _, _, h2⟩ <;> rw [h2]
    · exact updKey_other _ _ _ _ hk2
    · exact updKey_other _ _ _ _ hk2
    · dsimp only
      rw [updKey_other _ _ _ _ hk1, updKey_other _ _ _ _ hk2]

/-- What `execEval` can do to the candidate's own entry: leave it alone, or
(exactly when a candidate is emitted) switch a WATCH entry to EXECUTED. -/
theorem execEval_key_cases (env : Env) (d : Data) (strike : ℤ) (opt : OptType)
    (oi_pct ltp_change_pct vol_multiplier : ℚ) :
    (execEval env d strike opt oi_pct ltp_change_pct vol_multiplier).1 (opt, strike) =
      d (opt, strike) ∨
    (∃ e, d (opt, strike) = some e ∧ e.state = LState.WATCH ∧
      (execEval env d strike opt oi_pct ltp_change_pct vol_multiplier).1 (opt, strike) =
        some { e with state := LState.EXECUTED }) := by
  rcases execEval_cases env d strike opt oi_pct ltp_change_pct vol_multiplier with
    h | ⟨e, oppE, he, hw, _, _, h⟩
  · rw [h]
    exact Or.inl rfl
  · rw [h]
    rcases coveringEval_cases env d strike opt oi_pct ltp_change_pct vol_multiplier e oppE with
      h2 | h2 | h2 | ⟨bu, _, _, h2⟩ <;> rw [h2]
    · exact Or.inl rfl
    · exact Or.inl (updKey_other _ _ _ _ (key_ne_oppKey opt strike))
    · exact Or.inl (updKey_other _ _ _ _ (key_ne_oppKey opt strike))
    · exact Or.inr ⟨e, he, hw, updKey_self _ _ _⟩

/-- What `execEval` can do to the opposite entry: leave it alone, reset its
streak, or increment its streak; nothing else. -/
theorem execEval_opp_cases (env : Env) (d : Data) (strike : ℤ) (opt : OptType)
    (oi_pct ltp_change_pct vol_multiplier : ℚ) :
    (execEval env d strike opt oi_pct ltp_change_pct vol_multiplier).1 (oppOf opt, strike) =
      d (oppOf opt, strike) ∨
    (∃ oppE, d (oppOf opt, strike) = some oppE ∧
      ((execEval env d strike opt oi_pct ltp_change_pct vol_multiplier).1 (oppOf opt, strike) =
          some { oppE with decline_streak := 0 } ∨
        (execEval env d strike opt oi_pct ltp_change_pct vol_multiplier).1 (oppOf opt, strike) =
          some { oppE with decline_streak := oppE.decline_streak + 1 })) := by
  rcases execEval_cases env d strike opt oi_pct ltp_change_pct vol_multiplier with
    h | ⟨e, oppE, he, hw, ho, _, h⟩
  · rw [h]
    exact Or.inl rfl
  · rw [h]
    rcases coveringEval_cases env d strike opt oi_pct ltp_change_pct vol_multiplier e oppE with
      h2 | h2 | h2 | ⟨bu, _, _, h2⟩ <;> rw [h2]
    · exact Or.inl rfl
    · exact Or.inr ⟨oppE, ho, Or.inl (updKey_self _ _ _)⟩
    · exact Or.inr ⟨oppE, ho, Or.inr (updKey_self _ _ _)⟩
    · refine Or.inr ⟨oppE, ho, Or.inr ?_⟩
      dsimp only
      rw [updKey_other _ _ _ _ (Ne.symm (key_ne_oppKey opt strike))]
      exact updKey_self _ _ _

/-- If no candidate is emitted, the candidate's own entry is unchanged and
only the opposite entry can have been written at all. -/
theorem execEval_none_frame (env : Env) (d : Data) (strike : ℤ) (opt : OptType)
    (oi_pct ltp_change_pct vol_multiplier : ℚ)
    (hn : (execEval env d strike opt oi_pct ltp_change_pct vol_multiplier).2 = none) :
    (execEval env d strike opt oi_pct ltp_change_pct vol_multiplier).1 (opt, strike) =
      d (opt, strike) ∧
    ∀ k, k ≠ (oppOf opt, strike) →
      (execEval env d strike opt oi_pct ltp_change_pct vol_multiplier).1 k = d k := by
  rcases execEval_cases env d strike opt oi_pct ltp_change_pct vol_multiplier with
    h | ⟨e, oppE, he, hw, ho, _, h⟩
  · rw [h]
    exact ⟨rfl, fun k _ => rfl⟩
  · rw [h]
    rcases coveringEval_cases env d strike opt oi_pct ltp_change_pct vol_multiplier e oppE with
      h2 | h2 | h2 | ⟨bu, _, _, h2⟩ <;> rw [h2]
    · exact ⟨rfl, fun k _ => rfl⟩
    · exact ⟨updKey_other _ _ _ _ (key_ne_oppKey opt strike),
        fun k hk => updKey_other _ _ _ _ hk⟩
    · exact ⟨updKey_other _ _ _ _ (key_ne_oppKey opt strike),
        fun k hk => updKey_other _ _ _ _ hk⟩
    · rw [h, h2] at hn
      exact absurd hn (by simp)

/-- Properties of an emitted candidate: it names the processed contract, the
strike was unconflicted, and the entry went WATCH → EXECUTED. -/
theorem execEval_some (env : Env) (d : Data) (strike : ℤ) (opt : OptType)
    (oi_pct ltp_change_pct vol_multiplier : ℚ) (bu : Buildup)
    (hs : (execEval env d strike opt oi_pct ltp_change_pct vol_multiplier).2 = some bu) :
    bu.strike = strike ∧ bu.opt_type = opt ∧
    ¬(env.soc strike OptType.CE ≥ OI_BOTH_SIDES_AVOID ∧
        env.soc strike OptType.PE ≥ OI_BOTH_SIDES_AVOID) ∧
    ∃ e, d (opt, strike) = some e ∧ e.state = LState.WATCH ∧
      (execEval env d strike opt oi_pct ltp_change_pct vol_multiplier).1 (opt, strike) =
        some { e with state := LState.EXECUTED } := by
  rcases execEval_cases env d strike opt oi_pct ltp_change_pct vol_multiplier with
    h | ⟨e, oppE, he, hw, ho, hc, h⟩
  · rw [h] at hs
    exact absurd hs (by simp)
  · rcases coveringEval_cases env d strike opt oi_pct ltp_change_pct vol_multiplier e oppE with
      h2 | h2 | h2 | ⟨bu2, hb1, hb2, h2⟩
    · rw [h, h2] at hs
      exact absurd hs (by simp)
    · rw [h, h2] at hs
      exact absurd hs (by simp)
    · rw [h, h2] at hs
      exact absurd hs (by simp)
    · rw [h, h2] at hs
      have hbu : bu2 = bu := by
        simpa using hs
      subst hbu
      refine ⟨hb1, hb2, hc, e, he, hw, ?_⟩
      rw [h, h2]
      exact updKey_self _ _ _

theorem stateLe_top (a : LState) : stateLe a LState.EXECUTED := by
  cases a <;> decide

/-- `execEval` preserves every field but the state of the candidate's entry,
and can only move the state forward. -/
theorem execEval_key_entry (env : Env) (d : Data) (strike : ℤ) (opt : OptType)
    (oi_pct ltp_change_pct vol_multiplier : ℚ) (e2 : Entry)
    (h2 : d (opt, strike) = some e2) :
    ∃ e3, (execEval env d strike opt oi_pct ltp_change_pct vol_multiplier).1 (opt, strike) =
        some e3 ∧
      e3.base_oi = e2.base_oi ∧ e3.base_ltp = e2.base_ltp ∧ e3.base_vol = e2.base_vol ∧
      e3.prev_oi = e2.prev_oi ∧ stateLe e2.state e3.state := by
  rcases execEval_key_cases env d strike opt oi_pct ltp_change_pct vol_multiplier with
    hc | ⟨e4, he4, _, hres⟩
  · exact ⟨e2, by rw [hc]; exact h2, rfl, rfl, rfl, rfl, stateLe_refl _⟩
  · rw [h2] at he4
    injection he4 with he4
    subst he4
    exact ⟨_, hres, rfl, rfl, rfl, rfl, stateLe_top _⟩

/-- Everything one main-loop iteration can do to an entry already present at
any key: every baseline field and `prev_oi` is preserved, the lifecycle state
only moves forward, a below-floor entry's state never moves, and EXECUTED is
absorbing. -/
theorem processRow_entry (env : Env) (st : ScanSt) (r : Row) (k : Key) (e : Entry)
    (h : st.data k = some e) :
    ∃ e2, (processRow env st r).data k = some e2 ∧
      e2.base_oi = e.base_oi ∧ e2.base_ltp = e.base_ltp ∧ e2.base_vol = e.base_vol ∧
      e2.prev_oi = e.prev_oi ∧ stateLe e.state e2.state ∧
      (e.base_oi < MIN_BASE_OI → e2.state = e.state) ∧
      (e.state = LState.EXECUTED → e2.state = LState.EXECUTED) := by
  by_cases h0 : r.strike = 0
  · refine ⟨e, ?_, rfl, rfl, rfl, rfl, stateLe_refl _, fun _ => rfl, fun hx => hx⟩
    unfold processRow
    rw [if_pos h0]
    exact h
  · by_cases hk : k = (r.opt, r.strike)
    · subst hk
      unfold processRow
      rw [if_neg h0]
      dsimp only
      rw [h]
      simp only [Option.getD_some]
      by_cases hmin : e.base_oi < MIN_BASE_OI
      · rw [if_pos hmin]
        exact ⟨e, updKey_self _ _ _, rfl, rfl, rfl, rfl, stateLe_refl _, fun _ => rfl,
          fun hx => hx⟩
      · rw [if_neg hmin]
        obtain ⟨fe, sc, hE2eq⟩ := trackBlock_entry env.tNow (oiPct r.oi e.base_oi)
          (watchBlock env r.strike r.opt (oiPct r.oi e.base_oi)
            e st.watch_today st.watch_alerts).1
        rw [hE2eq]
        rcases watchBlock_entry env r.strike r.opt (oiPct r.oi e.base_oi)
            e st.watch_today st.watch_alerts with hw | ⟨hn, hw⟩
        · rw [hw]
          split_ifs with hex2
          · exact ⟨_, updKey_self _ _ _, rfl, rfl, rfl, rfl, stateLe_refl _,
              fun _ => rfl, fun _ => hex2⟩
          · obtain ⟨e3, hres, hb1, hb2, hb3, hb4, hsle3⟩ :=
              execEval_key_entry env _ r.strike r.opt _ _ _ _ (updKey_self _ _ _)
            exact ⟨e3, hres, hb1, hb2, hb3, hb4, hsle3, fun hmm => absurd hmm hmin,
              fun hx => stateLe_executed _ (by rw [← hx]; exact hsle3)⟩
        · rw [hw]
          split
          next hex2 => exact absurd hex2 (by simp)
          next hex2 =>
            obtain ⟨e3, hres, hb1, hb2, hb3, hb4, hsle3⟩ :=
              execEval_key_entry env _ r.strike r.opt _ _ _ _ (updKey_self _ _ _)
            refine ⟨e3, hres, hb1, hb2, hb3, hb4, ?_, fun hmm => absurd hmm hmin, ?_⟩
            · exact stateLe_trans _ _ _ (by rw [hn]; exact stateLe_none _) hsle3
            · intro hx
              rw [hx] at hn
              exact absurd hn (by decide)
    · unfold processRow
      rw [if_neg h0]
      dsimp only
      split_ifs with hmin hex2
      · exact ⟨e, (updKey_other _ _ _ _ hk).trans h, rfl, rfl, rfl, rfl,
          stateLe_refl _, fun _ => rfl, fun hx => hx⟩
      · exact ⟨e, (updKey_other _ _ _ _ hk).trans ((updKey_other _ _ _ _ hk).trans h),
          rfl, rfl, rfl, rfl, stateLe_refl _, fun _ => rfl, fun hx => hx⟩
      · by_cases hko : k = (oppOf r.opt, r.strike)
        · subst hko
          rcases execEval_opp_cases env
            (updKey (updKey st.data (r.opt, r.strike)
              ((st.data (r.opt, r.strike)).getD (initEntry r)))
              (r.opt, r.strike)
              (trackBlock env.tNow
                (oiPct r.oi ((st.data (r.opt, r.strike)).getD (initEntry r)).base_oi)
                (watchBlock env r.strike r.opt
                  (oiPct r.oi ((st.data (r.opt, r.strike)).getD (initEntry r)).base_oi)
                  ((st.data (r.opt, r.strike)).getD (initEntry r))
                  st.watch_today st.watch_alerts).1))
            r.strike r.opt _ _ _ with hc | ⟨oppE, hoe, hc⟩
          · exact ⟨e,
              hc.trans ((updKey_other _ _ _ _ hk).trans ((updKey_other _ _ _ _ hk).trans h)),
              rfl, rfl, rfl, rfl, stateLe_refl _, fun _ => rfl, fun hx => hx⟩
          · rw [updKey_other _ _ _ _ hk, updKey_other _ _ _ _ hk, h] at hoe
            injection hoe with hoe
            subst hoe
            rcases hc with hc | hc
            · exact ⟨_, hc, rfl, rfl, rfl, rfl, stateLe_refl _, fun _ => rfl, fun hx => hx⟩
            · exact ⟨_, hc, rfl, rfl, rfl, rfl, stateLe_refl _, fun _ => rfl, fun hx => hx⟩
        · exact ⟨e,
            (execEval_frame env _ r.strike r.opt _ _ _ k hk hko).trans
              ((updKey_other _ _ _ _ hk).trans ((updKey_other _ _ _ _ hk).trans h)),
            rfl, rfl, rfl, rfl, stateLe_refl _, fun _ => rfl, fun hx => hx⟩

/-- First observation of a key: `setdefault` stores the row's values as the
baseline, and a below-floor contract is stored untouched in state NONE. -/
theorem processRow_creates (env : Env) (st : ScanSt) (r : Row) (h0 : r.strike ≠ 0)
    (h : st.data (r.opt, r.strike) = none) :
    ∃ e2, (processRow env st r).data (r.opt, r.strike) = some e2 ∧
      e2.base_oi = r.oi ∧ e2.base_ltp = r.ltp ∧ e2.base_vol = r.vol ∧
      (r.oi < MIN_BASE_OI → e2 = initEntry r) := by
  unfold processRow
  rw [if_neg h0]
  dsimp only
  rw [h]
  simp only [Option.getD_none]
  by_cases hmin : (initEntry r).base_oi < MIN_BASE_OI
  · rw [if_pos hmin]
    exact ⟨initEntry r, updKey_self _ _ _, rfl, rfl, rfl, fun _ => rfl⟩
  · rw [if_neg hmin]
    obtain ⟨fe, sc, hE2eq⟩ := trackBlock_entry env.tNow (oiPct r.oi (initEntry r).base_oi)
      (watchBlock env r.strike r.opt (oiPct r.oi (initEntry r).base_oi) (initEntry r)
        st.watch_today st.watch_alerts).1
    rw [hE2eq]
    rcases watchBlock_entry env r.strike r.opt (oiPct r.oi (initEntry r).base_oi) (initEntry r)
        st.watch_today st.watch_alerts with hw | ⟨hn, hw⟩ <;> rw [hw] <;> split
    next hex2 => exact absurd hex2 (by simp [initEntry])
    next hex2 =>
      obtain ⟨e3, hres, hb1, hb2, hb3, _, _⟩ :=
        execEval_key_entry env _ r.strike r.opt _ _ _ _ (updKey_self _ _ _)
      exact ⟨e3, hres, hb1, hb2, hb3, fun hmm => absurd hmm hmin⟩
    next hex2 => exact absurd hex2 (by simp [initEntry])
    next hex2 =>
      obtain ⟨e3, hres, hb1, hb2, hb3, _, _⟩ :=
        execEval_key_entry env _ r.strike r.opt _ _ _ _ (updKey_self _ _ _)
      exact ⟨e3, hres, hb1, hb2, hb3, fun hmm => absurd hmm hmin⟩

/-- A key untouched by this row stays absent. -/
theorem processRow_absent (env : Env) (st : ScanSt) (r : Row) (k : Key)
    (h : st.data k = none) (hk : k ≠ (r.opt, r.strike)) :
    (processRow env st r).data k = none := by
  by_cases h0 : r.strike = 0
  · unfold processRow
    rw [if_pos h0]
    exact h
  · unfold processRow
    rw [if_neg h0]
    dsimp only
    set e0 := (st.data (r.opt, r.strike)).getD (initEntry r) with he0
    set e2t := trackBlock env.tNow (oiPct r.oi e0.base_oi)
      (watchBlock env r.strike r.opt (oiPct r.oi e0.base_oi) e0
        st.watch_today st.watch_alerts).1 with he2t
    split_ifs with hmin hex2
    · exact (updKey_other _ _ _ _ hk).trans h
    · exact (updKey_other _ _ _ _ hk).trans ((updKey_other _ _ _ _ hk).trans h)
    · by_cases hko : k = (oppOf r.opt, r.strike)
      · subst hko
        rcases execEval_opp_cases env
            (updKey (updKey st.data (r.opt, r.strike) e0) (r.opt, r.strike) e2t)
            r.strike r.opt (oiPct r.oi e0.base_oi) (ltpChangePct r.ltp e0.base_ltp)
            (volMult r.vol e0.base_vol) with hc | ⟨oppE, hoe, _⟩
        · exact hc.trans ((updKey_other _ _ _ _ hk).trans ((updKey_other _ _ _ _ hk).trans h))
        · rw [updKey_other _ _ _ _ hk, updKey_other _ _ _ _ hk, h] at hoe
          exact absurd hoe (by simp)
      · exact (execEval_frame env _ r.strike r.opt _ _ _ k hk hko).trans
          ((updKey_other _ _ _ _ hk).trans ((updKey_other _ _ _ _ hk).trans h))

/-- Any candidate in the per-row result was either already collected, or was
emitted by this very row: then it names this row's contract, the strike is
unconflicted, the entry was not yet EXECUTED before the row, and it is
EXECUTED afterwards. -/
theorem processRow_emits (env : Env) (st : ScanSt) (r : Row) (bu : Buildup)
    (hm : bu ∈ (processRow env st r).ce_buildups ++ (processRow env st r).pe_buildups) :
    bu ∈ st.ce_buildups ++ st.pe_buildups ∨
      (bu.strike = r.strike ∧ bu.opt_type = r.opt ∧
        ¬(env.soc r.strike OptType.CE ≥ OI_BOTH_SIDES_AVOID ∧
            env.soc r.strike OptType.PE ≥ OI_BOTH_SIDES_AVOID) ∧
        (∀ e, st.data (r.opt, r.strike) = some e → e.state ≠ LState.EXECUTED) ∧
        ∃ e2, (processRow env st r).data (r.opt, r.strike) = some e2 ∧
          e2.state = LState.EXECUTED) := by
  by_cases h0 : r.strike = 0
  · unfold processRow at hm
    rw [if_pos h0] at hm
    exact Or.inl hm
  · unfold processRow at hm ⊢
    rw [if_neg h0] at hm ⊢
    dsimp only at hm ⊢
    set e0 := (st.data (r.opt, r.strike)).getD (initEntry r) with he0
    set e2t := trackBlock env.tNow (oiPct r.oi e0.base_oi)
      (watchBlock env r.strike r.opt (oiPct r.oi e0.base_oi) e0
        st.watch_today st.watch_alerts).1 with he2t
    split_ifs at hm ⊢ with hmin hex2
    · exact Or.inl hm
    · exact Or.inl hm
    · set d2 := updKey (updKey st.data (r.opt, r.strike) e0) (r.opt, r.strike) e2t with hd2
      cases hob : (execEval env d2 r.strike r.opt (oiPct r.oi e0.base_oi)
          (ltpChangePct r.ltp e0.base_ltp) (volMult r.vol e0.base_vol)).2 with
      | none =>
        rw [hob] at hm
        simp only [sideEmits, List.append_nil, List.mem_append] at hm
        exact Or.inl (List.mem_append.mpr hm)
      | some bu2 =>
        rw [hob] at hm
        obtain ⟨hstr, hopt, hconf, e4, he4, hw4, hres⟩ :=
          execEval_some env d2 r.strike r.opt _ _ _ bu2 hob
        have hE2some : d2 (r.opt, r.strike) = some e2t := updKey_self _ _ _
        rw [hE2some] at he4
        injection he4 with he4
        subst he4
        have hnotex : ∀ e, st.data (r.opt, r.strike) = some e → e.state ≠ LState.EXECUTED := by
          intro e he hst
          obtain ⟨fe, sc, hE2eq⟩ := trackBlock_entry env.tNow (oiPct r.oi e0.base_oi)
            (watchBlock env r.strike r.opt (oiPct r.oi e0.base_oi) e0
              st.watch_today st.watch_alerts).1
          rcases watchBlock_entry env r.strike r.opt (oiPct r.oi e0.base_oi) e0
              st.watch_today st.watch_alerts with hwb | ⟨hnb, hwb⟩
          · apply hex2
            have hst2 : e2t.state = e0.state := by rw [he2t, hE2eq, hwb]
            rw [hst2, he0, he, Option.getD_some, hst]
          · rw [he0, he, Option.getD_some, hst] at hnb
            exact absurd hnb (by decide)
        have hout : ∃ e2,
            (execEval env d2 r.strike r.opt (oiPct r.oi e0.base_oi)
              (ltpChangePct r.ltp e0.base_ltp) (volMult r.vol e0.base_vol)).1
              (r.opt, r.strike) = some e2 ∧ e2.state = LState.EXECUTED :=
          ⟨_, hres, rfl⟩
        simp only [sideEmits, List.mem_append] at hm
        rcases hm with (hm | hm) | (hm | hm)
        · exact Or.inl (List.mem_append.mpr (Or.inl hm))
        · by_cases hce : r.opt = OptType.CE
          · rw [if_pos hce] at hm
            simp only [List.mem_singleton] at hm
            subst hm
            exact Or.inr ⟨hstr, hopt, hconf, hnotex, hout⟩
          · rw [if_neg hce] at hm
            exact absurd hm (List.not_mem_nil _)
        · exact Or.inl (List.mem_append.mpr (Or.inr hm))
        · by_cases hpe : r.opt = OptType.PE
          · rw [if_pos hpe] at hm
            simp only [List.mem_singleton] at hm
            subst hm
            exact Or.inr ⟨hstr, hopt, hconf, hnotex, hout⟩
          · rw [if_neg hpe] at hm
            exact absurd hm (List.not_mem_nil _)

-- ================= FOLD-LEVEL LEMMAS =================

/-- `processRow_entry` lifted over the whole main loop. -/
theorem processRows_entry (env : Env) (rows : List Row) (st : ScanSt) (k : Key) (e : Entry)
    (h : st.data k = some e) :
    ∃ e2, (processRows env st rows).data k = some e2 ∧
      e2.base_oi = e.base_oi ∧ e2.base_ltp = e.base_ltp ∧ e2.base_vol = e.base_vol ∧
      e2.prev_oi = e.prev_oi ∧ stateLe e.state e2.state ∧
      (e.base_oi < MIN_BASE_OI → e2.state = e.state) ∧
      (e.state = LState.EXECUTED → e2.state = LState.EXECUTED) := by
  induction rows generalizing st e with
  | nil => exact ⟨e, h, rfl, rfl, rfl, rfl, stateLe_refl _, fun _ => rfl, fun hx => hx⟩
  | cons r rs ih =>
    obtain ⟨e1, h1, b1, b2, b3, b4, s1, m1, x1⟩ := processRow_entry env st r k e h
    obtain ⟨e2, h2, c1, c2, c3, c4, s2, m2, x2⟩ := ih (processRow env st r) e1 h1
    refine ⟨e2, h2, c1.trans b1, c2.trans b2, c3.trans b3, c4.trans b4,
      stateLe_trans _ _ _ s1 s2, ?_, fun hx => x2 (x1 hx)⟩
    intro hmm
    exact (m2 (by rw [b1]; exact hmm)).trans (m1 hmm)

/-- A strike conflicted in the pre-computed map emits no candidate on either
side during the whole main loop. -/
theorem processRows_conflict (env : Env) (rows : List Row) (st : ScanSt) (strike : ℤ)
    (hce : env.soc strike OptType.CE ≥ OI_BOTH_SIDES_AVOID)
    (hpe : env.soc strike OptType.PE ≥ OI_BOTH_SIDES_AVOID)
    (hinit : ∀ bu ∈ st.ce_buildups ++ st.pe_buildups, bu.strike ≠ strike) :
    ∀ bu ∈ (processRows env st rows).ce_buildups ++ (processRows env st rows).pe_buildups,
      bu.strike ≠ strike := by
  induction rows generalizing st with
  | nil => exact hinit
  | cons r rs ih =>
    apply ih
    intro bu hm
    rcases processRow_emits env st r bu hm with hold | ⟨hstr, _, hconf, _, _⟩
    · exact hinit bu hold
    · intro hq
      exact hconf (by rw [hstr.symm.trans hq]; exact ⟨hce, hpe⟩)

/-- A key already EXECUTED never has a candidate emitted for it during the
whole main loop. -/
theorem processRows_no_new_executed (env : Env) (rows : List Row) (st : ScanSt) (k : Key)
    (e : Entry) (hk : st.data k = some e) (he : e.state = LState.EXECUTED)
    (hinit : ∀ bu ∈ st.ce_buildups ++ st.pe_buildups, buKey bu ≠ k) :
    ∀ bu ∈ (processRows env st rows).ce_buildups ++ (processRows env st rows).pe_buildups,
      buKey bu ≠ k := by
  induction rows generalizing st e with
  | nil => exact hinit
  | cons r rs ih =>
    obtain ⟨e1, h1, _, _, _, _, _, _, x1⟩ := processRow_entry env st r k e hk
    apply ih (processRow env st r) e1 h1 (x1 he)
    intro bu hm
    rcases processRow_emits env st r bu hm with hold | ⟨hstr, hopt, _, hnx, _⟩
    · exact hinit bu hold
    · intro hq
      have hkk : k = (r.opt, r.strike) := by rw [← hq, buKey, hopt, hstr]
      exact hnx e (hkk ▸ hk) he

/-- Every candidate collected by the main loop is stored as EXECUTED in the
loop's final data dictionary. -/
theorem processRows_cand_executed (env : Env) (rows : List Row) (st : ScanSt)
    (hinit : ∀ bu ∈ st.ce_buildups ++ st.pe_buildups,
      ∃ e, st.data (buKey bu) = some e ∧ e.state = LState.EXECUTED) :
    ∀ bu ∈ (processRows env st rows).ce_buildups ++ (processRows env st rows).pe_buildups,
      ∃ e, (processRows env st rows).data (buKey bu) = some e ∧
        e.state = LState.EXECUTED := by
  induction rows generalizing st with
  | nil => exact hinit
  | cons r rs ih =>
    apply ih
    intro bu hm
    rcases processRow_emits env st r bu hm with hold | ⟨hstr, hopt, _, _, e2, he2, hx2⟩
    · obtain ⟨e, hke, hse⟩ := hinit bu hold
      obtain ⟨e1, h1, _, _, _, _, _, _, x1⟩ := processRow_entry env st r (buKey bu) e hke
      exact ⟨e1, h1, x1 hse⟩
    · refine ⟨e2, ?_, hx2⟩
      rw [buKey, hopt, hstr]
      exact he2

/-- One `prev_oi` write-back step changes at most `prev_oi` of a stored entry. -/
theorem prevStep_entry (d : Data) (r : Row) (k : Key) (e : Entry) (h : d k = some e) :
    ∃ p, prevStep d r k = some { e with prev_oi := p } := by
  unfold prevStep
  by_cases h0 : r.strike = 0
  · rw [if_pos h0]
    exact ⟨e.prev_oi, h⟩
  · rw [if_neg h0]
    by_cases hk : k = (r.opt, r.strike)
    · subst hk
      rw [h]
      exact ⟨r.oi, updKey_self _ _ _⟩
    · cases hd : d (r.opt, r.strike) with
      | none => exact ⟨e.prev_oi, h⟩
      | some e3 => exact ⟨e.prev_oi, (updKey_other _ _ _ _ hk).trans h⟩

/-- The `prev_oi` write-back loop changes at most `prev_oi` of stored entries. -/
theorem prevLoop_entry (rows : List Row) (d : Data) (k : Key) (e : Entry) (h : d k = some e) :
    ∃ p, prevLoop rows d k = some { e with prev_oi := p } := by
  induction rows generalizing d e with
  | nil => exact ⟨e.prev_oi, h⟩
  | cons r rs ih =>
    obtain ⟨p1, h1⟩ := prevStep_entry d r k e h
    obtain ⟨p2, h2⟩ := ih (prevStep d r) { e with prev_oi := p1 } h1
    exact ⟨p2, h2⟩

/-- The alert loop never touches the data dictionary, the day-level metadata
or the WATCH counter, and only dispatches candidates it was given. -/
theorem alertFold_inv (cands : List Buildup) (acc : Baseline × List Buildup) :
    (cands.foldl alertStep acc).1.date = acc.1.date ∧
    (cands.foldl alertStep acc).1.started = acc.1.started ∧
    (cands.foldl alertStep acc).1.day_open = acc.1.day_open ∧
    (cands.foldl alertStep acc).1.data = acc.1.data ∧
    (cands.foldl alertStep acc).1.watch_today = acc.1.watch_today ∧
    (∀ bu ∈ (cands.foldl alertStep acc).2, bu ∈ acc.2 ∨ bu ∈ cands) := by
  induction cands generalizing acc with
  | nil => exact ⟨rfl, rfl, rfl, rfl, rfl, fun bu h => Or.inl h⟩
  | cons c cs ih =>
    obtain ⟨i1, i2, i3, i4, i5, i6⟩ := ih (alertStep acc c)
    have hstep : (alertStep acc c).1.date = acc.1.date ∧
        (alertStep acc c).1.started = acc.1.started ∧
        (alertStep acc c).1.day_open = acc.1.day_open ∧
        (alertStep acc c).1.data = acc.1.data ∧
        (alertStep acc c).1.watch_today = acc.1.watch_today ∧
        (∀ bu ∈ (alertStep acc c).2, bu ∈ acc.2 ∨ bu = c) := by
      unfold alertStep
      split_ifs
      · exact ⟨rfl, rfl, rfl, rfl, rfl, fun bu h => by
          rcases List.mem_append.mp h with h2 | h2
          · exact Or.inl h2
          · exact Or.inr (List.mem_singleton.mp h2)⟩
      · exact ⟨rfl, rfl, rfl, rfl, rfl, fun bu h => Or.inl h⟩
    refine ⟨i1.trans hstep.1, i2.trans hstep.2.1, i3.trans hstep.2.2.1,
      i4.trans hstep.2.2.2.1, i5.trans hstep.2.2.2.2.1, ?_⟩
    intro bu h
    rcases i6 bu h with h2 | h2
    · rcases hstep.2.2.2.2.2 bu h2 with h3 | h3
      · exact Or.inl h3
      · exact Or.inr (by rw [h3]; exact List.mem_cons_self _ _)
    · exact Or.inr (List.mem_cons_of_mem _ h2)

theorem alertLoop_data (b : Baseline) (cands : List Buildup) :
    (alertLoop b cands).1.data = b.data :=
  (alertFold_inv cands (b, [])).2.2.2.1

theorem alertLoop_sent (b : Baseline) (cands : List Buildup) :
    ∀ bu ∈ (alertLoop b cands).2, bu ∈ cands := by
  intro bu h
  rcases (alertFold_inv cands (b, [])).2.2.2.2.2 bu h with h2 | h2
  · exact absurd h2 (List.not_mem_nil _)
  · exact h2

/-- `scanCore` version of the master entry lemma (the `prev_oi` write-back
may change `prev_oi`, everything else behaves as in the main loop). -/
theorem scanCore_entry (env : Env) (frows : List Row) (b3 : Baseline) (k : Key) (e : Entry)
    (h : b3.data k = some e) :
    ∃ e2, (scanCore env frows b3).b.data k = some e2 ∧
      e2.base_oi = e.base_oi ∧ e2.base_ltp = e.base_ltp ∧ e2.base_vol = e.base_vol ∧
      stateLe e.state e2.state ∧
      (e.base_oi < MIN_BASE_OI → e2.state = e.state) ∧
      (e.state = LState.EXECUTED → e2.state = LState.EXECUTED) := by
  unfold scanCore
  dsimp only
  obtain ⟨e1, h1, c1, c2, c3, _, s1, m1, x1⟩ := processRows_entry env frows
    ⟨b3.data, b3.watch_today, [], [], []⟩ k e h
  obtain ⟨p, hp⟩ := prevLoop_entry frows _ k e1 h1
  refine ⟨{ e1 with prev_oi := p }, ?_, c1, c2, c3, s1, m1, x1⟩
  rw [alertLoop_data]
  exact hp

theorem scanCore_meta (env : Env) (frows : List Row) (b3 : Baseline) :
    (scanCore env frows b3).b.date = b3.date ∧
    (scanCore env frows b3).b.started = b3.started ∧
    (scanCore env frows b3).b.day_open = b3.day_open := by
  unfold scanCore
  dsimp only
  exact ⟨(alertFold_inv _ _).1, (alertFold_inv _ _).2.1, (alertFold_inv _ _).2.2.1⟩

theorem scanCore_sent (env : Env) (frows : List Row) (b3 : Baseline) :
    ∀ bu ∈ (scanCore env frows b3).sent, bu ∈ (scanCore env frows b3).candidates := by
  unfold scanCore
  dsimp only
  exact alertLoop_sent _ _

/-- Every candidate handed to the Signal Selector is stored as EXECUTED in
the scan's final data dictionary. -/
theorem scanCore_cand_executed (env : Env) (frows : List Row) (b3 : Baseline) :
    ∀ bu ∈ (scanCore env frows b3).candidates,
      ∃ e2, (scanCore env frows b3).b.data (buKey bu) = some e2 ∧
        e2.state = LState.EXECUTED := by
  unfold scanCore
  dsimp only
  intro bu hm
  have hmem := (List.mergeSort_perm _ buGe).mem_iff.mp hm
  obtain ⟨e, he, hse⟩ := processRows_cand_executed env frows
    ⟨b3.data, b3.watch_today, [], [], []⟩ (by intro bu2 h2; simp at h2) bu hmem
  obtain ⟨p, hp⟩ := prevLoop_entry frows _ (buKey bu) e he
  refine ⟨{ e with prev_oi := p }, ?_, hse⟩
  rw [alertLoop_data]
  exact hp

/-- A key whose entry is already EXECUTED gets no candidate in this scan. -/
theorem scanCore_no_new (env : Env) (frows : List Row) (b3 : Baseline) (k : Key) (e : Entry)
    (h : b3.data k = some e) (he : e.state = LState.EXECUTED) :
    ∀ bu ∈ (scanCore env frows b3).candidates, buKey bu ≠ k := by
  unfold scanCore
  dsimp only
  intro bu hm
  have hmem := (List.mergeSort_perm _ buGe).mem_iff.mp hm
  exact processRows_no_new_executed env frows ⟨b3.data, b3.watch_today, [], [], []⟩ k e h he
    (by intro bu2 h2; simp at h2) bu hmem

/-- A strike conflicted in the scan's `strike_oi_changes` map has no
candidate for either side. -/
theorem scanCore_conflict (env : Env) (frows : List Row) (b3 : Baseline) (strike : ℤ)
    (hce : env.soc strike OptType.CE ≥ OI_BOTH_SIDES_AVOID)
    (hpe : env.soc strike OptType.PE ≥ OI_BOTH_SIDES_AVOID) :
    ∀ bu ∈ (scanCore env frows b3).candidates, bu.strike ≠ strike := by
  unfold scanCore
  dsimp only
  intro bu hm
  have hmem := (List.mergeSort_perm _ buGe).mem_iff.mp hm
  exact processRows_conflict env frows ⟨b3.data, b3.watch_today, [], [], []⟩ strike hce hpe
    (by intro bu2 h2; simp at h2) bu hmem

theorem reset_day_date (today : String) (b : Baseline) :
    (reset_day today b).date = some today := by
  unfold reset_day
  split_ifs with h
  · exact h
  · rfl

theorem reset_day_same (today : String) (b : Baseline) (h : b.date = some today) :
    reset_day today b = b := by
  unfold reset_day
  rw [if_pos h]

-- ================= SCAN-LEVEL LEMMAS =================

set_option maxHeartbeats 1000000 in
/-- Every code path of `scan` leaves the trading date set to today. -/
theorem scan_date (today : String) (inWindow after_entry : Bool) (tNow : ℚ)
    (spotStartup spotMain : Option ℚ) (chain : Option Chain) (b : Baseline) :
    (scan today inWindow after_entry tNow spotStartup spotMain chain b).b.date =
      some today := by
  unfold scan
  dsimp only
  cases spotMain with
  | none => split_ifs <;> exact reset_day_date today b
  | some spot =>
    dsimp only
    cases chain with
    | none => split_ifs <;> exact reset_day_date today b
    | some c =>
      dsimp only
      cases hdays : c.expiryDays with
      | none => split_ifs <;> exact reset_day_date today b
      | some days =>
        dsimp only
        split_ifs <;>
          first
            | exact reset_day_date today b
            | exact (scanCore_meta _ _ _).1.trans (reset_day_date today b)

set_option maxHeartbeats 1000000 in
/-- The master per-scan entry lemma, for a same-day scan. -/
theorem scan_entry (today : String) (inWindow after_entry : Bool) (tNow : ℚ)
    (spotStartup spotMain : Option ℚ) (chain : Option Chain) (b : Baseline) (k : Key)
    (e : Entry) (hd : b.date = some today) (h : b.data k = some e) :
    ∃ e2, (scan today inWindow after_entry tNow spotStartup spotMain chain b).b.data k =
        some e2 ∧
      e2.base_oi = e.base_oi ∧ e2.base_ltp = e.base_ltp ∧ e2.base_vol = e.base_vol ∧
      stateLe e.state e2.state ∧
      (e.base_oi < MIN_BASE_OI → e2.state = e.state) ∧
      (e.state = LState.EXECUTED → e2.state = LState.EXECUTED) := by
  unfold scan
  rw [reset_day_same today b hd]
  dsimp only
  cases spotMain with
  | none =>
    split_ifs <;> exact ⟨e, h, rfl, rfl, rfl, stateLe_refl _, fun _ => rfl, fun hx => hx⟩
  | some spot =>
    dsimp only
    cases chain with
    | none =>
      split_ifs <;> exact ⟨e, h, rfl, rfl, rfl, stateLe_refl _, fun _ => rfl, fun hx => hx⟩
    | some c =>
      dsimp only
      cases hdays : c.expiryDays with
      | none =>
        split_ifs <;> exact ⟨e, h, rfl, rfl, rfl, stateLe_refl _, fun _ => rfl, fun hx => hx⟩
      | some days =>
        dsimp only
        split_ifs <;>
          first
            | exact ⟨e, h, rfl, rfl, rfl, stateLe_refl _, fun _ => rfl, fun hx => hx⟩
            | exact scanCore_entry _ _ _ k e h

set_option maxHeartbeats 1000000 in
/-- Every alert `scan` dispatches is one of its scored candidates. -/
theorem scan_sent_sub (today : String) (inWindow after_entry : Bool) (tNow : ℚ)
    (spotStartup spotMain : Option ℚ) (chain : Option Chain) (b : Baseline) :
    ∀ bu ∈ (scan today inWindow after_entry tNow spotStartup spotMain chain b).sent,
      bu ∈ (scan today inWindow after_entry tNow spotStartup spotMain chain b).candidates := by
  unfold scan
  dsimp only
  cases spotMain with
  | none => split_ifs <;> exact fun bu h => absurd h (List.not_mem_nil _)
  | some spot =>
    dsimp only
    cases chain with
    | none => split_ifs <;> exact fun bu h => absurd h (List.not_mem_nil _)
    | some c =>
      dsimp only
      cases hdays : c.expiryDays with
      | none => split_ifs <;> exact fun bu h => absurd h (List.not_mem_nil _)
      | some days =>
        dsimp only
        split_ifs <;>
          first
            | exact fun bu h => absurd h (List.not_mem_nil _)
            | exact scanCore_sent _ _ _

set_option maxHeartbeats 1000000 in
/-- Every candidate of a scan ends the scan stored as EXECUTED. -/
theorem scan_cand_executed (today : String) (inWindow after_entry : Bool) (tNow : ℚ)
    (spotStartup spotMain : Option ℚ) (chain : Option Chain) (b : Baseline) :
    ∀ bu ∈ (scan today inWindow after_entry tNow spotStartup spotMain chain b).candidates,
      ∃ e2, (scan today inWindow after_entry tNow spotStartup spotMain chain b).b.data
          (buKey bu) = some e2 ∧ e2.state = LState.EXECUTED := by
  unfold scan
  dsimp only
  cases spotMain with
  | none => split_ifs <;> exact fun bu h => absurd h (List.not_mem_nil _)
  | some spot =>
    dsimp only
    cases chain with
    | none => split_ifs <;> exact fun bu h => absurd h (List.not_mem_nil _)
    | some c =>
      dsimp only
      cases hdays : c.expiryDays with
      | none => split_ifs <;> exact fun bu h => absurd h (List.not_mem_nil _)
      | some days =>
        dsimp only
        split_ifs <;>
          first
            | exact fun bu h => absurd h (List.not_mem_nil _)
            | exact scanCore_cand_executed _ _ _

set_option maxHeartbeats 1000000 in
/-- A key already EXECUTED before a same-day scan has no candidate in it. -/
theorem scan_no_new (today : String) (inWindow after_entry : Bool) (tNow : ℚ)
    (spotStartup spotMain : Option ℚ) (chain : Option Chain) (b : Baseline) (k : Key)
    (e : Entry) (hd : b.date = some today) (h : b.data k = some e)
    (he : e.state = LState.EXECUTED) :
    ∀ bu ∈ (scan today inWindow after_entry tNow spotStartup spotMain chain b).candidates,
      buKey bu ≠ k := by
  unfold scan
  rw [reset_day_same today b hd]
  dsimp only
  cases spotMain with
  | none => split_ifs <;> exact fun bu h2 => absurd h2 (List.not_mem_nil _)
  | some spot =>
    dsimp only
    cases chain with
    | none => split_ifs <;> exact fun bu h2 => absurd h2 (List.not_mem_nil _)
    | some c =>
      dsimp only
      cases hdays : c.expiryDays with
      | none => split_ifs <;> exact fun bu h2 => absurd h2 (List.not_mem_nil _)
      | some days =>
        dsimp only
        split_ifs <;>
          first
            | exact fun bu h2 => absurd h2 (List.not_mem_nil _)
            | exact scanCore_no_new _ _ _ k e h he

-- ================= MULTI-SCAN LEMMAS =================

/-- The master entry lemma over any same-day sequence of scans. -/
theorem runFold_entry (today : String) (ins : List ScanIn) :
    ∀ (acc : Baseline × List Buildup) (k : Key) (e : Entry),
      acc.1.date = some today → acc.1.data k = some e →
      ∃ e2, (ins.foldl (runStep today) acc).1.data k = some e2 ∧
        e2.base_oi = e.base_oi ∧ e2.base_ltp = e.base_ltp ∧ e2.base_vol = e.base_vol ∧
        stateLe e.state e2.state ∧
        (e.base_oi < MIN_BASE_OI → e2.state = e.state) ∧
        (e.state = LState.EXECUTED → e2.state = LState.EXECUTED) := by
  induction ins with
  | nil =>
    exact fun acc k e _ h =>
      ⟨e, h, rfl, rfl, rfl, stateLe_refl _, fun _ => rfl, fun hx => hx⟩
  | cons i is ih =>
    intro acc k e hd h
    obtain ⟨e1, h1, c1, c2, c3, s1, m1, x1⟩ := scan_entry today i.inWindow i.after_entry
      i.tNow i.spotStartup i.spotMain i.chain acc.1 k e hd h
    obtain ⟨e2, h2, d1, d2, d3, s2, m2, x2⟩ := ih (runStep today acc i) k e1
      (scan_date today i.inWindow i.after_entry i.tNow i.spotStartup i.spotMain i.chain acc.1)
      h1
    exact ⟨e2, h2, d1.trans c1, d2.trans c2, d3.trans c3, stateLe_trans _ _ _ s1 s2,
      fun hmm => (m2 (by rw [c1]; exact hmm)).trans (m1 hmm), fun hx => x2 (x1 hx)⟩

/-- Once a key is EXECUTED, no later same-day scan dispatches an alert for it. -/
theorem runFold_exec_alerts (today : String) (ins : List ScanIn) :
    ∀ (acc : Baseline × List Buildup) (k : Key) (e : Entry),
      acc.1.date = some today → acc.1.data k = some e → e.state = LState.EXECUTED →
      ∀ bu ∈ (ins.foldl (runStep today) acc).2, bu ∈ acc.2 ∨ buKey bu ≠ k := by
  induction ins with
  | nil => exact fun acc k e _ _ _ bu h => Or.inl h
  | cons i is ih =>
    intro acc k e hd h he bu hm
    obtain ⟨e1, h1, _, _, _, _, _, x1⟩ := scan_entry today i.inWindow i.after_entry
      i.tNow i.spotStartup i.spotMain i.chain acc.1 k e hd h
    rcases ih (runStep today acc i) k e1
        (scan_date today i.inWindow i.after_entry i.tNow i.spotStartup i.spotMain i.chain
          acc.1) h1 (x1 he) bu hm with hin | hne
    · rcases List.mem_append.mp hin with h2 | h2
      · exact Or.inl h2
      · exact Or.inr (scan_no_new today i.inWindow i.after_entry i.tNow i.spotStartup
          i.spotMain i.chain acc.1 k e hd h he bu
          (scan_sent_sub today i.inWindow i.after_entry i.tNow i.spotStartup i.spotMain
            i.chain acc.1 bu h2))
    · exact Or.inr hne

-- ================= CONCRETE FIXTURES FOR WITNESSES =================

theorem stateLe_watch (s : LState) (h : stateLe LState.WATCH s) : s ≠ LState.NONE := by
  cases s
  · exact absurd h (by decide)
  · decide
  · decide

-- ================= CLAIM THEOREMS =================

/-- C1: for every ContractKey and every same-day sequence of scans, the
lifecycle state only ever moves forward along NONE → WATCH → EXECUTED, and
once EXECUTED it stays EXECUTED and no further execution alert is dispatched
for that key until the daily reset. -/
theorem spec_lifecycle_monotone_executed_terminal (today : String) (b : Baseline)
    (ins : List ScanIn) (k : Key) (e : Entry)
    (hd : b.date = some today) (h : b.data k = some e) :
    ∃ e2, (runScans today b ins).1.data k = some e2 ∧
      stateLe e.state e2.state ∧
      (e.state = LState.EXECUTED →
        e2.state = LState.EXECUTED ∧ ∀ bu ∈ (runScans today b ins).2, buKey bu ≠ k) := by
  obtain ⟨e2, h2, _, _, _, s1, _, x1⟩ := runFold_entry today ins (b, []) k e hd h
  refine ⟨e2, h2, s1, fun hx => ⟨x1 hx, fun bu hm => ?_⟩⟩
  rcases runFold_exec_alerts today ins (b, []) k e hd h hx bu hm with hin | hne
  · exact absurd hin (List.not_mem_nil _)
  · exact hne

theorem spec_lifecycle_monotone_executed_terminal_witness :
    wBase.date = some wDay ∧ wBase.data wKey = some wEntryExec ∧
    (∃ e2, (runScans wDay wBase wIns).1.data wKey = some e2 ∧
      stateLe wEntryExec.state e2.state ∧
      (wEntryExec.state = LState.EXECUTED →
        e2.state = LState.EXECUTED ∧ ∀ bu ∈ (runScans wDay wBase wIns).2, buKey bu ≠ wKey)) :=
  ⟨rfl, by decide,
    spec_lifecycle_monotone_executed_terminal wDay wBase wIns wKey wEntryExec rfl (by decide)⟩

/-- C2: the baseline fields `base_oi`/`base_ltp`/`base_vol` are set exactly
once, at the first observation of a key (to that row's OI, premium and
volume), and every later same-day scan leaves them unchanged. -/
theorem spec_baseline_fields_immutable :
    (∀ (env : Env) (st : ScanSt) (r : Row), r.strike ≠ 0 →
      st.data (r.opt, r.strike) = none →
      ∃ e2, (processRow env st r).data (r.opt, r.strike) = some e2 ∧
        e2.base_oi = r.oi ∧ e2.base_ltp = r.ltp ∧ e2.base_vol = r.vol) ∧
    (∀ (today : String) (b : Baseline) (ins : List ScanIn) (k : Key) (e : Entry),
      b.date = some today → b.data k = some e →
      ∃ e2, (runScans today b ins).1.data k = some e2 ∧
        e2.base_oi = e.base_oi ∧ e2.base_ltp = e.base_ltp ∧ e2.base_vol = e.base_vol) := by
  constructor
  · intro env st r h0 h
    obtain ⟨e2, h2, c1, c2, c3, _⟩ := processRow_creates env st r h0 h
    exact ⟨e2, h2, c1, c2, c3⟩
  · intro today b ins k e hd h
    obtain ⟨e2, h2, c1, c2, c3, _, _, _⟩ := runFold_entry today ins (b, []) k e hd h
    exact ⟨e2, h2, c1, c2, c3⟩

/-- C8: a contract whose stored `base_oi` is below the configured floor
stays in state NONE across every same-day scan, no matter what OI values are
observed later. -/
theorem spec_below_floor_never_leaves_none (today : String) (b : Baseline)
    (ins : List ScanIn) (k : Key) (e : Entry)
    (hd : b.date = some today) (h : b.data k = some e)
    (hb : e.base_oi < MIN_BASE_OI) (hs : e.state = LState.NONE) :
    ∃ e2, (runScans today b ins).1.data k = some e2 ∧
      e2.state = LState.NONE ∧ e2.base_oi = e.base_oi := by
  obtain ⟨e2, h2, c1, _, _, _, m1, _⟩ := runFold_entry today ins (b, []) k e hd h
  exact ⟨e2, h2, (m1 hb).trans hs, c1⟩

theorem spec_below_floor_never_leaves_none_witness :
    wBase.date = some wDay ∧ wBase.data (OptType.PE, 45000) = some wEntryLow ∧
    wEntryLow.base_oi < MIN_BASE_OI ∧ wEntryLow.state = LState.NONE ∧
    (∃ e2, (runScans wDay wBase wIns).1.data (OptType.PE, 45000) = some e2 ∧
      e2.state = LState.NONE ∧ e2.base_oi = wEntryLow.base_oi) :=
  ⟨rfl, by decide, by decide, rfl,
    spec_below_floor_never_leaves_none wDay wBase wIns (OptType.PE, 45000) wEntryLow rfl
      (by decide) (by decide) rfl⟩

theorem spec_baseline_fields_immutable_witness :
    (wRow.strike ≠ 0 ∧ wSt.data (wRow.opt, wRow.strike) = none ∧
      ∃ e2, (processRow wEnv wSt wRow).data (wRow.opt, wRow.strike) = some e2 ∧
        e2.base_oi = wRow.oi ∧ e2.base_ltp = wRow.ltp ∧ e2.base_vol = wRow.vol) ∧
    (wBase.date = some wDay ∧ wBase.data wKey = some wEntryExec ∧
      ∃ e2, (runScans wDay wBase wIns).1.data wKey = some e2 ∧
        e2.base_oi = wEntryExec.base_oi ∧ e2.base_ltp = wEntryExec.base_ltp ∧
        e2.base_vol = wEntryExec.base_vol) :=
  ⟨⟨by decide, rfl,
      spec_baseline_fields_immutable.1 wEnv wSt wRow (by decide) rfl⟩,
    ⟨rfl, by decide,
      spec_baseline_fields_immutable.2 wDay wBase wIns wKey wEntryExec rfl (by decide)⟩⟩

/-- C3: a NONE contract meeting the floor whose OI% change reaches the watch
threshold has its state set to WATCH by the watch block — with the entry
update identical whether or not the notification is suppressed by the
conflict / distance / daily-cap gates — and ends the row no longer NONE. -/
theorem spec_watch_state_advances_despite_suppression (env : Env) (st : ScanSt) (r : Row)
    (e : Entry) (h0 : r.strike ≠ 0) (he : st.data (r.opt, r.strike) = some e)
    (hs : e.state = LState.NONE) (hb : MIN_BASE_OI ≤ e.base_oi)
    (hoi : oiPct r.oi e.base_oi ≥ WATCH_OI_PCT) :
    (watchBlock env r.strike r.opt (oiPct r.oi e.base_oi) e st.watch_today
        st.watch_alerts).1 = { e with state := LState.WATCH } ∧
    ∃ e2, (processRow env st r).data (r.opt, r.strike) = some e2 ∧
      e2.state ≠ LState.NONE := by
  have hwb : (watchBlock env r.strike r.opt (oiPct r.oi e.base_oi) e st.watch_today
      st.watch_alerts).1 = { e with state := LState.WATCH } := by
    unfold watchBlock
    rw [if_pos ⟨hoi, hs⟩]
    dsimp only
    split_ifs <;> rfl
  refine ⟨hwb, ?_⟩
  unfold processRow
  rw [if_neg h0]
  dsimp only
  rw [he]
  simp only [Option.getD_some]
  rw [if_neg (not_lt.mpr hb)]
  obtain ⟨fe, sc, hE2eq⟩ := trackBlock_entry env.tNow (oiPct r.oi e.base_oi)
    (watchBlock env r.strike r.opt (oiPct r.oi e.base_oi) e st.watch_today st.watch_alerts).1
  rw [hE2eq, hwb]
  split
  next hex2 =>
    refine ⟨_, updKey_self _ _ _, ?_⟩
    rw [hex2]
    decide
  next hex2 =>
    obtain ⟨e3, hres, _, _, _, _, hsle3⟩ :=
      execEval_key_entry env _ r.strike r.opt _ _ _ _ (updKey_self _ _ _)
    exact ⟨e3, hres, stateLe_watch _ hsle3⟩

theorem spec_watch_state_advances_despite_suppression_witness :
    w3Row.strike ≠ 0 ∧ w3St.data (w3Row.opt, w3Row.strike) = some w3Entry ∧
    w3Entry.state = LState.NONE ∧ MIN_BASE_OI ≤ w3Entry.base_oi ∧
    oiPct w3Row.oi w3Entry.base_oi ≥ WATCH_OI_PCT ∧
    ((watchBlock wEnv w3Row.strike w3Row.opt (oiPct w3Row.oi w3Entry.base_oi) w3Entry
        w3St.watch_today w3St.watch_alerts).1 = { w3Entry with state := LState.WATCH } ∧
      ∃ e2, (processRow wEnv w3St w3Row).data (w3Row.opt, w3Row.strike) = some e2 ∧
        e2.state ≠ LState.NONE) :=
  ⟨by decide, by decide, rfl, by decide,
    by norm_num [oiPct, w3Row, w3Entry, WATCH_OI_PCT],
    spec_watch_state_advances_despite_suppression wEnv w3St w3Row w3Entry (by decide)
      (by decide) rfl (by decide)
      (by norm_num [oiPct, w3Row, w3Entry, WATCH_OI_PCT])⟩

/-- C5: when the scan's pre-computed per-strike OI%-change map shows both
sides of a strike at or above the conflict avoid-threshold, the scan
produces no execution candidate and dispatches no execution signal for
either side at that strike. -/
theorem spec_conflicted_strike_suppresses_execution (env : Env) (frows : List Row)
    (b3 : Baseline) (strike : ℤ)
    (hsoc : env.soc = strikeOIChanges b3.data frows)
    (hce : strikeOIChanges b3.data frows strike OptType.CE ≥ OI_BOTH_SIDES_AVOID)
    (hpe : strikeOIChanges b3.data frows strike OptType.PE ≥ OI_BOTH_SIDES_AVOID) :
    (∀ bu ∈ (scanCore env frows b3).candidates, bu.strike ≠ strike) ∧
    (∀ bu ∈ (scanCore env frows b3).sent, bu.strike ≠ strike) := by
  rw [← hsoc] at hce hpe
  refine ⟨scanCore_conflict env frows b3 strike hce hpe, fun bu hm => ?_⟩
  exact scanCore_conflict env frows b3 strike hce hpe bu (scanCore_sent env frows b3 bu hm)

theorem spec_conflicted_strike_suppresses_execution_witness :
    w5Env.soc = strikeOIChanges w5Base.data w5Rows ∧
    strikeOIChanges w5Base.data w5Rows 45000 OptType.CE ≥ OI_BOTH_SIDES_AVOID ∧
    strikeOIChanges w5Base.data w5Rows 45000 OptType.PE ≥ OI_BOTH_SIDES_AVOID ∧
    ((∀ bu ∈ (scanCore w5Env w5Rows w5Base).candidates, bu.strike ≠ 45000) ∧
      (∀ bu ∈ (scanCore w5Env w5Rows w5Base).sent, bu.strike ≠ 45000)) :=
  ⟨rfl,
    by norm_num [strikeOIChanges, socStep, w5Base, w5Data, w5EntryCE, w5EntryPE, w5Rows,
      updKey, MIN_BASE_OI, OI_BOTH_SIDES_AVOID],
    by norm_num [strikeOIChanges, socStep, w5Base, w5Data, w5EntryCE, w5EntryPE, w5Rows,
      updKey, MIN_BASE_OI, OI_BOTH_SIDES_AVOID],
    spec_conflicted_strike_suppresses_execution w5Env w5Rows w5Base 45000 rfl
      (by norm_num [strikeOIChanges, socStep, w5Base, w5Data, w5EntryCE, w5EntryPE, w5Rows,
        updKey, MIN_BASE_OI, OI_BOTH_SIDES_AVOID])
      (by norm_num [strikeOIChanges, socStep, w5Base, w5Data, w5EntryCE, w5EntryPE, w5Rows,
        updKey, MIN_BASE_OI, OI_BOTH_SIDES_AVOID])⟩

/-- C10: every candidate that passed the seven gates is already stored as
EXECUTED in the scan's persisted state, independent of the Signal Selector's
daily-cap decision; every dispatched alert comes from the candidate list;
and an EXECUTED key is never re-proposed by a later same-day scan. -/
theorem spec_executed_before_selector (today : String) (inWindow after_entry : Bool)
    (tNow : ℚ) (spotStartup spotMain : Option ℚ) (chain : Option Chain) (b : Baseline) :
    (∀ bu ∈ (scan today inWindow after_entry tNow spotStartup spotMain chain b).candidates,
      ∃ e2, (scan today inWindow after_entry tNow spotStartup spotMain chain b).b.data
          (buKey bu) = some e2 ∧ e2.state = LState.EXECUTED) ∧
    (∀ bu ∈ (scan today inWindow after_entry tNow spotStartup spotMain chain b).sent,
      bu ∈ (scan today inWindow after_entry tNow spotStartup spotMain chain b).candidates) ∧
    (∀ (i2 : ScanIn) (k : Key) (e2 : Entry),
      (scan today inWindow after_entry tNow spotStartup spotMain chain b).b.data k = some e2 →
      e2.state = LState.EXECUTED →
      ∀ bu ∈ (scanStep today
          (scan today inWindow after_entry tNow spotStartup spotMain chain b).b i2).candidates,
        buKey bu ≠ k) := by
  refine ⟨scan_cand_executed today inWindow after_entry tNow spotStartup spotMain chain b,
    scan_sent_sub today inWindow after_entry tNow spotStartup spotMain chain b, ?_⟩
  intro i2 k e2 hk he2
  exact scan_no_new today i2.inWindow i2.after_entry i2.tNow i2.spotStartup i2.spotMain
    i2.chain _ k e2
    (scan_date today inWindow after_entry tNow spotStartup spotMain chain b) hk he2

theorem spec_executed_before_selector_witness :
    (scan wDay true true 0 none none none wBase).b.data wKey = some wEntryExec ∧
    wEntryExec.state = LState.EXECUTED ∧
    (∀ bu ∈ (scanStep wDay (scan wDay true true 0 none none none wBase).b wIn2).candidates,
      buKey bu ≠ wKey) :=
  ⟨by decide, rfl,
    (spec_executed_before_selector wDay true true 0 none none none wBase).2.2 wIn2 wKey
      wEntryExec (by decide) rfl⟩

theorem declineStreakFold_replicate (n : Nat) :
    ∀ s : Nat, declineStreakFold (List.replicate n true) s = s + n := by
  induction n with
  | zero => intro s; simp [declineStreakFold]
  | succ m ih =>
    intro s
    rw [List.replicate_succ]
    have h1 : declineStreakFold (true :: List.replicate m true) s =
        declineStreakFold (List.replicate m true) (s + 1) := rfl
    rw [h1, ih (s + 1)]
    omega

/-- C6: once the evaluation reaches the covering check, a scan in which the
opposite side is not declining past the minimum decline threshold (in
particular any scan in which it does not fall at all) fails the check, resets
the opposite entry's `decline_streak` to 0 and rejects the candidate; a
qualifying decline increments the streak by one; and N consecutive
qualifying scans starting from a reset leave the streak at N. -/
theorem spec_covering_check_decline_streak (env : Env) (d : Data) (strike : ℤ)
    (opt : OptType) (oi_pct ltp_change_pct vol_multiplier : ℚ) (e oppE : Entry)
    (he : d (opt, strike) = some e)
    (ho : d (oppOf opt, strike) = some oppE)
    (hg1 : oi_pct ≥ EXEC_OI_PCT ∧ ltp_change_pct ≤ env.premium_tol ∧
      e.state = LState.WATCH)
    (hg2 : env.after_entry = true)
    (hg3 : ¬(|env.spot_move_pct| < SPOT_MOVE_PCT ∨ vol_multiplier < VOL_MULTIPLIER))
    (hg4 : ¬(env.soc strike OptType.CE ≥ OI_BOTH_SIDES_AVOID ∧
        env.soc strike OptType.PE ≥ OI_BOTH_SIDES_AVOID))
    (hg5 : env.cur_oi strike (oppOf opt) ≠ 0) :
    (¬isCovering (env.cur_oi strike (oppOf opt)) oppE.prev_oi →
      (execEval env d strike opt oi_pct ltp_change_pct vol_multiplier).2 = none ∧
      (execEval env d strike opt oi_pct ltp_change_pct vol_multiplier).1
        (oppOf opt, strike) = some { oppE with decline_streak := 0 }) ∧
    (isCovering (env.cur_oi strike (oppOf opt)) oppE.prev_oi →
      (execEval env d strike opt oi_pct ltp_change_pct vol_multiplier).1
        (oppOf opt, strike) = some { oppE with decline_streak := oppE.decline_streak + 1 }) ∧
    (oppE.prev_oi ≤ env.cur_oi strike (oppOf opt) →
      ¬isCovering (env.cur_oi strike (oppOf opt)) oppE.prev_oi) ∧
    (∀ n : Nat, declineStreakFold (List.replicate n true) 0 = n) := by
  have hred : execEval env d strike opt oi_pct ltp_change_pct vol_multiplier =
      coveringEval env d strike opt oi_pct ltp_change_pct vol_multiplier e oppE := by
    unfold execEval
    rw [he]
    dsimp only
    rw [if_neg (not_not_intro hg1), if_neg (not_not_intro hg2), if_neg hg3, if_neg hg4, ho]
  refine ⟨?_, ?_, ?_, ?_⟩
  · intro hnc
    rw [hred]
    unfold coveringEval
    rw [if_neg hg5, if_pos hnc]
    exact ⟨rfl, updKey_self _ _ _⟩
  · intro hc
    rw [hred]
    unfold coveringEval
    rw [if_neg hg5, if_neg (not_not_intro hc)]
    split_ifs with hscore
    · exact updKey_self _ _ _
    · dsimp only
      rw [updKey_other _ _ _ _ (Ne.symm (key_ne_oppKey opt strike))]
      exact updKey_self _ _ _
  · intro hge hc
    exact absurd hc.1 (not_lt.mpr hge)
  · intro n
    exact (declineStreakFold_replicate n 0).trans (Nat.zero_add n)

theorem spec_covering_check_decline_streak_witness :
    w6D (OptType.CE, 45000) = some w6E ∧ w6D (oppOf OptType.CE, 45000) = some w6Opp ∧
    ((250 : ℚ) ≥ EXEC_OI_PCT ∧ (0 : ℚ) ≤ w6Env.premium_tol ∧ w6E.state = LState.WATCH) ∧
    w6Env.after_entry = true ∧
    ¬(|w6Env.spot_move_pct| < SPOT_MOVE_PCT ∨ (2 : ℚ) < VOL_MULTIPLIER) ∧
    ¬(w6Env.soc 45000 OptType.CE ≥ OI_BOTH_SIDES_AVOID ∧
        w6Env.soc 45000 OptType.PE ≥ OI_BOTH_SIDES_AVOID) ∧
    w6Env.cur_oi 45000 (oppOf OptType.CE) ≠ 0 ∧
    isCovering (w6Env.cur_oi 45000 (oppOf OptType.CE)) w6Opp.prev_oi ∧
    (execEval w6Env w6D 45000 OptType.CE 250 0 2).1 (oppOf OptType.CE, 45000) =
      some { w6Opp with decline_streak := w6Opp.decline_streak + 1 } := by
  have hcov : isCovering (w6Env.cur_oi 45000 (oppOf OptType.CE)) w6Opp.prev_oi := by
    constructor
    · decide
    · show oppDeclinePct (w6Env.cur_oi 45000 (oppOf OptType.CE)) w6Opp.prev_oi ≤ _
      norm_num [oppDeclinePct, w6Env, w6Opp, oppOf, MIN_DECLINE_PCT]
  refine ⟨rfl, by decide, ⟨by norm_num [EXEC_OI_PCT], by norm_num [w6Env], rfl⟩, rfl,
    by norm_num [w6Env, SPOT_MOVE_PCT, VOL_MULTIPLIER],
    by norm_num [w6Env, OI_BOTH_SIDES_AVOID], by decide, hcov, ?_⟩
  exact (spec_covering_check_decline_streak w6Env w6D 45000 OptType.CE 250 0 2 w6E w6Opp
    rfl (by decide) ⟨by norm_num [EXEC_OI_PCT], by norm_num [w6Env], rfl⟩ rfl
    (by norm_num [w6Env, SPOT_MOVE_PCT, VOL_MULTIPLIER])
    (by norm_num [w6Env, OI_BOTH_SIDES_AVOID]) (by decide)).2.1 hcov

/-- C4 (amended): when the WATCH → EXECUTED evaluation rejects a candidate
(any gate fails), the candidate's own entry — in particular its lifecycle
state — is left exactly as it was, and the only key that can have been
written at all is the opposite entry (its `decline_streak`, reset by a failed
covering check or incremented by a passed one even when the score gate then
rejects).  No candidate is forwarded and no notification results. -/
theorem spec_exec_rejection_state_frame (env : Env) (d : Data) (strike : ℤ)
    (opt : OptType) (oi_pct ltp_change_pct vol_multiplier : ℚ)
    (hn : (execEval env d strike opt oi_pct ltp_change_pct vol_multiplier).2 = none) :
    (execEval env d strike opt oi_pct ltp_change_pct vol_multiplier).1 (opt, strike) =
      d (opt, strike) ∧
    ∀ k, k ≠ (oppOf opt, strike) →
      (execEval env d strike opt oi_pct ltp_change_pct vol_multiplier).1 k = d k :=
  execEval_none_frame env d strike opt oi_pct ltp_change_pct vol_multiplier hn

theorem c4_eval :
    execEval c4Env c4D 45000 OptType.CE 250 0 2 =
      (updKey c4D (oppOf OptType.CE, 45000) { c4Opp with decline_streak := 0 }, none) := by
  have he : c4D (OptType.CE, 45000) = some w6E := rfl
  have ho : c4D (oppOf OptType.CE, 45000) = some c4Opp := rfl
  have hnc : ¬ isCovering (c4Env.cur_oi 45000 (oppOf OptType.CE)) c4Opp.prev_oi :=
    fun h => absurd h.1 (by decide)
  unfold execEval
  rw [he]
  dsimp only
  rw [if_neg (not_not_intro ⟨by norm_num [EXEC_OI_PCT], by norm_num [c4Env], rfl⟩),
    if_neg (by decide : ¬¬(c4Env.after_entry = true)),
    if_neg (by norm_num [c4Env, SPOT_MOVE_PCT, VOL_MULTIPLIER] :
      ¬(|c4Env.spot_move_pct| < SPOT_MOVE_PCT ∨ (2 : ℚ) < VOL_MULTIPLIER)),
    if_neg (by norm_num [c4Env, OI_BOTH_SIDES_AVOID] :
      ¬(c4Env.soc 45000 OptType.CE ≥ OI_BOTH_SIDES_AVOID ∧
          c4Env.soc 45000 OptType.PE ≥ OI_BOTH_SIDES_AVOID)), ho]
  dsimp only
  unfold coveringEval
  rw [if_neg (by decide : ¬(c4Env.cur_oi 45000 (oppOf OptType.CE) = 0)), if_pos hnc]

/-- C4 counterexample: a failing gate is not free of persisted-state changes:
here the covering check fails (opposite OI rose 1000 → 2000), the candidate
is rejected, and yet the opposite entry's stored `decline_streak` is wiped
from 2 to 0 — so "no change to persisted state" is false as stated. -/
theorem spec_exec_rejection_state_frame_counterexample :
    (execEval c4Env c4D 45000 OptType.CE 250 0 2).2 = none ∧
    (execEval c4Env c4D 45000 OptType.CE 250 0 2).1 (OptType.PE, 45000) ≠
      c4D (OptType.PE, 45000) ∧
    c4D (OptType.PE, 45000) = some c4Opp ∧ c4Opp.decline_streak = 2 ∧
    (execEval c4Env c4D 45000 OptType.CE 250 0 2).1 (OptType.PE, 45000) =
      some { c4Opp with decline_streak := 0 } := by
  rw [c4_eval]
  refine ⟨rfl, ?_, rfl, rfl, ?_⟩ <;> decide

theorem spec_exec_rejection_state_frame_witness :
    (execEval c4Env c4D 45000 OptType.CE 250 0 2).2 = none ∧
    ((execEval c4Env c4D 45000 OptType.CE 250 0 2).1 (OptType.CE, 45000) =
        c4D (OptType.CE, 45000) ∧
      ∀ k, k ≠ (oppOf OptType.CE, 45000) →
        (execEval c4Env c4D 45000 OptType.CE 250 0 2).1 k = c4D k) :=
  ⟨by rw [c4_eval],
    spec_exec_rejection_state_frame c4Env c4D 45000 OptType.CE 250 0 2 (by rw [c4_eval])⟩

/-- Abort behaviour of a started, same-day, in-window scan whose main spot
fetch or option-chain fetch fails: nothing is sent or forwarded and only
`day_open` can have been written (helper for the fetch-failure analysis). -/
theorem scan_abort_started (today : String) (after_entry : Bool) (tNow : ℚ)
    (spotStartup spotMain : Option ℚ) (chain : Option Chain) (b : Baseline)
    (hd : b.date = some today) (hs : b.started = true)
    (hfail : spotMain = none ∨ chain = none) :
    ∃ dopen,
      scan today true after_entry tNow spotStartup spotMain chain b =
        ⟨{ b with day_open := dopen }, [], []⟩ ∧
      (dopen = b.day_open ∨
        (b.day_open = none ∧ ∃ s, spotMain = some s ∧ dopen = some s)) := by
  unfold scan
  rw [reset_day_same today b hd]
  dsimp only
  rw [if_neg (show ¬(¬b.started = true ∧ spotStartup = none) from fun h => h.1 hs),
    if_pos hs, if_neg (show ¬(¬(true : Bool) = true) from by decide)]
  rcases hfail with hsm | hch
  · subst hsm
    dsimp only
    exact ⟨b.day_open, rfl, Or.inl rfl⟩
  · cases spotMain with
    | none =>
      dsimp only
      exact ⟨b.day_open, rfl, Or.inl rfl⟩
    | some s =>
      subst hch
      dsimp only
      by_cases hdo : b.day_open = none
      · rw [if_pos hdo]
        exact ⟨some s, rfl, Or.inr ⟨hdo, s, rfl, rfl⟩⟩
      · rw [if_neg hdo]
        exact ⟨b.day_open, rfl, Or.inl rfl⟩

/-- C9 (amended): a same-day trading-window scan whose main spot fetch or
option-chain fetch fails dispatches nothing, forwards no candidates, and
leaves the persisted contract data, counters and daily signal records
unchanged — but not necessarily the whole baseline: two partial writes can
survive the abort.  The startup ping persists `started := true` (lines
565–566) before the main fetches whenever the baseline was not yet started
and the startup spot fetch succeeded (so the final flag is
`started OR startup-spot-succeeded`), and a successful main spot fetch
persists a previously unset `day_open` (lines 582–584) before the chain
fetch is attempted. -/
theorem spec_fetch_failure_aborts (today : String) (after_entry : Bool) (tNow : ℚ)
    (spotStartup spotMain : Option ℚ) (chain : Option Chain) (b : Baseline)
    (hd : b.date = some today)
    (hfail : spotMain = none ∨ chain = none) :
    ∃ dopen,
      scan today true after_entry tNow spotStartup spotMain chain b =
        ⟨{ b with started := b.started || spotStartup.isSome, day_open := dopen },
          [], []⟩ ∧
      (dopen = b.day_open ∨
        (b.day_open = none ∧ ∃ s, spotMain = some s ∧ dopen = some s)) := by
  obtain ⟨dt, st, dop, dat, sg, wt, ds⟩ := b
  cases st with
  | true =>
    obtain ⟨dopen, h1, h2⟩ := scan_abort_started today after_entry tNow spotStartup
      spotMain chain ⟨dt, true, dop, dat, sg, wt, ds⟩ hd rfl hfail
    refine ⟨dopen, ?_, h2⟩
    rw [h1]
    rfl
  | false =>
    cases hss : spotStartup with
    | none =>
      refine ⟨dop, ?_, Or.inl rfl⟩
      unfold scan
      rw [reset_day_same today _ hd]
      dsimp only
      rw [if_pos (show ¬(false : Bool) = true ∧ (none : Option ℚ) = none from by decide)]
      rfl
    | some s0 =>
      have hstep : scan today true after_entry tNow (some s0) spotMain chain
          ⟨dt, false, dop, dat, sg, wt, ds⟩ =
          scan today true after_entry tNow (some s0) spotMain chain
          ⟨dt, true, dop, dat, sg, wt, ds⟩ := by
        unfold scan
        rw [reset_day_same today ⟨dt, false, dop, dat, sg, wt, ds⟩ hd,
          reset_day_same today ⟨dt, true, dop, dat, sg, wt, ds⟩ hd]
        dsimp only
        rw [if_neg (show ¬(¬(false : Bool) = true ∧ (some s0 : Option ℚ) = none) from
            fun h => Option.noConfusion h.2),
          if_neg (show ¬(¬(true : Bool) = true ∧ (some s0 : Option ℚ) = none) from
            fun h => h.1 rfl),
          if_neg (show ¬((false : Bool) = true) from by decide),
          if_pos (show (true : Bool) = true from rfl)]
      rw [hstep]
      obtain ⟨dopen, h1, h2⟩ := scan_abort_started today after_entry tNow (some s0)
        spotMain chain ⟨dt, true, dop, dat, sg, wt, ds⟩ hd rfl hfail
      refine ⟨dopen, ?_, h2⟩
      rw [h1]
      rfl

/-- C9 counterexample: a scan whose option-chain fetch fails does NOT leave
the baseline exactly as it was.  Two partial writes: the main spot fetch,
made before the chain fetch, captures and persists `day_open` (none → 45000);
and on the day's first scan the startup ping persists `started`
(false → true) before either main fetch is attempted. -/
theorem spec_fetch_failure_aborts_counterexample :
    (cb9.day_open = none ∧
      (scan "D" true true 0 none (some 45000) none cb9).b.day_open = some 45000) ∧
    (cb9b.started = false ∧
      (scan "D" true true 0 (some 45000) (some 45000) none cb9b).b.started = true) := by
  exact ⟨⟨rfl, rfl⟩, ⟨rfl, rfl⟩⟩

theorem spec_fetch_failure_aborts_witness :
    cb9.date = some "D" ∧
    ((none : Option ℚ) = none ∨ (none : Option Chain) = none) ∧
    ∃ dopen,
      scan "D" true true 0 none none none cb9 =
        ⟨{ cb9 with
          started := cb9.started || (none : Option ℚ).isSome
          day_open := dopen }, [], []⟩ ∧
      (dopen = cb9.day_open ∨
        (cb9.day_open = none ∧ ∃ s, (none : Option ℚ) = some s ∧ dopen = some s)) :=
  ⟨rfl, Or.inl rfl,
    spec_fetch_failure_aborts "D" true 0 none none none cb9 rfl (Or.inl rfl)⟩

theorem scoreGe_trans (a b c : SignalRecord) (hab : scoreGe a b = true)
    (hbc : scoreGe b c = true) : scoreGe a c = true :=
  decide_eq_true (le_trans (of_decide_eq_true hbc) (of_decide_eq_true hab))

theorem scoreGe_total (a b : SignalRecord) : (scoreGe a b || scoreGe b a) = true := by
  unfold scoreGe
  rcases le_total b.score a.score with h | h <;> simp [h]

theorem foldlMin_le_init (rest : List SignalRecord) :
    ∀ a : ℤ, rest.foldl (fun a rec2 => min a rec2.score) a ≤ a := by
  induction rest with
  | nil => intro a; exact le_refl a
  | cons r t ih =>
    intro a
    exact le_trans (ih (min a r.score)) (min_le_left _ _)

theorem foldlMin_le_mem (rest : List SignalRecord) :
    ∀ (a : ℤ) (x : SignalRecord), x ∈ rest →
      rest.foldl (fun a rec2 => min a rec2.score) a ≤ x.score := by
  induction rest with
  | nil => intro a x hx; exact absurd hx (List.not_mem_nil x)
  | cons r t ih =>
    intro a x hx
    rcases List.mem_cons.mp hx with h | h
    · subst h
      exact le_trans (foldlMin_le_init t (min a x.score)) (min_le_right _ _)
    · exact ih (min a r.score) x h

theorem foldlMin_attained (rest : List SignalRecord) :
    ∀ a : ℤ, rest.foldl (fun a rec2 => min a rec2.score) a = a ∨
      ∃ x ∈ rest, rest.foldl (fun a rec2 => min a rec2.score) a = x.score := by
  induction rest with
  | nil => intro a; exact Or.inl rfl
  | cons r t ih =>
    intro a
    rcases ih (min a r.score) with h | ⟨x, hx, hv⟩
    · rcases min_choice a r.score with hm | hm
      · exact Or.inl (h.trans hm)
      · exact Or.inr ⟨r, List.mem_cons_self r t, h.trans hm⟩
    · exact Or.inr ⟨x, List.mem_cons_of_mem r hx, hv⟩

theorem minScoreOf_le (l : List SignalRecord) (x : SignalRecord) (hx : x ∈ l) :
    minScoreOf l ≤ x.score := by
  cases l with
  | nil => exact absurd hx (List.not_mem_nil x)
  | cons s rest =>
    rcases List.mem_cons.mp hx with h | h
    · subst h
      exact foldlMin_le_init rest x.score
    · exact foldlMin_le_mem rest s.score x h

theorem minScoreOf_mem (l : List SignalRecord) (h : l ≠ []) :
    ∃ x ∈ l, minScoreOf l = x.score := by
  cases l with
  | nil => exact absurd rfl h
  | cons s rest =>
    rcases foldlMin_attained rest s.score with h2 | ⟨x, hx, hv⟩
    · exact ⟨s, List.mem_cons_self s rest, h2⟩
    · exact ⟨x, List.mem_cons_of_mem s hx, hv⟩

theorem sortedSplitMin (l : List SignalRecord) (h4 : l.length = 4) :
    ∃ w, (l.mergeSort scoreGe).drop 3 = [w] ∧
      l.Perm ((l.mergeSort scoreGe).take 3 ++ [w]) ∧
      w ∈ l ∧ (∀ x ∈ l, w.score ≤ x.score) ∧
      ((l.mergeSort scoreGe).take 3).length = 3 := by
  have hperm := List.mergeSort_perm l scoreGe
  have hslen : (l.mergeSort scoreGe).length = 4 := hperm.length_eq.trans h4
  have hpair : (l.mergeSort scoreGe).Pairwise (fun a b => scoreGe a b = true) :=
    List.sorted_mergeSort scoreGe_trans scoreGe_total l
  have hdlen : ((l.mergeSort scoreGe).drop 3).length = 1 := by
    rw [List.length_drop, hslen]
  obtain ⟨w, hw⟩ := List.length_eq_one.mp hdlen
  have hsplit : l.mergeSort scoreGe = (l.mergeSort scoreGe).take 3 ++ [w] := by
    conv_lhs => rw [← List.take_append_drop 3 (l.mergeSort scoreGe)]
    rw [hw]
  refine ⟨w, hw, ?_, ?_, ?_, ?_⟩
  · rw [← hsplit]
    exact hperm.symm
  · exact hperm.subset (by
      rw [hsplit]
      exact List.mem_append_right _ (List.mem_singleton_self w))
  · intro x hx
    have hxs : x ∈ (l.mergeSort scoreGe).take 3 ++ [w] := by
      rw [← hsplit]
      exact hperm.mem_iff.mpr hx
    rcases List.mem_append.mp hxs with h | h
    · exact of_decide_eq_true ((List.pairwise_append.mp (hsplit ▸ hpair)).2.2 x h w
        (List.mem_singleton_self w))
    · rw [List.mem_singleton.mp h]
  · rw [List.length_take, hslen]
    decide

/-- C7 counterexample: with the daily cap reached and accepted scores
[95, 80, 70], a new candidate scoring 80 exceeds the weakest accepted score
(70) by exactly the improvement margin (10) — i.e. by "at least" the margin —
yet `should_send_signal` rejects it: line 519 demands strictly more than the
margin (`new_signal_score > min_score + SCORE_IMPROVEMENT_THRESHOLD`). -/
theorem spec_signal_cap_replacement_counterexample :
    cb7.signals_today = MAX_SIGNALS_PER_DAY ∧
    minScoreOf cb7.daily_signals = 70 ∧
    (80 : ℤ) ≥ minScoreOf cb7.daily_signals + SCORE_IMPROVEMENT_THRESHOLD ∧
    (should_send_signal cb7 80).1 = false := by
  refine ⟨rfl, ?_, ?_, ?_⟩ <;> decide

/-- C7 (amended): a candidate is accepted whenever the day's signal count is
under the cap; once the cap is reached (and some signal is recorded) it is
accepted if and only if its score exceeds the weakest accepted score by
STRICTLY MORE than the improvement margin (not "at least": equality is
rejected); and on acceptance at a full record list the new record enters the
day's top-3 while an entry carrying the weakest accepted score is dropped. -/
theorem spec_signal_cap_replacement (b : Baseline) (bu : Buildup) :
    (b.signals_today < MAX_SIGNALS_PER_DAY →
      (should_send_signal b bu.conviction_score).1 = true) ∧
    (¬ b.signals_today < MAX_SIGNALS_PER_DAY → b.daily_signals ≠ [] →
      ((should_send_signal b bu.conviction_score).1 = true ↔
        bu.conviction_score > minScoreOf b.daily_signals + SCORE_IMPROVEMENT_THRESHOLD)) ∧
    (¬ b.signals_today < MAX_SIGNALS_PER_DAY →
      b.daily_signals.length = MAX_SIGNALS_PER_DAY →
      (should_send_signal b bu.conviction_score).1 = true →
      ∃ w, (record_signal b bu).daily_signals.length = MAX_SIGNALS_PER_DAY ∧
        mkSignalRecord bu ∈ (record_signal b bu).daily_signals ∧
        (b.daily_signals ++ [mkSignalRecord bu]).Perm
          ((record_signal b bu).daily_signals ++ [w]) ∧
        w.score = minScoreOf b.daily_signals ∧
        (record_signal b bu).signals_today = b.signals_today + 1) := by
  refine ⟨?_, ?_, ?_⟩
  · intro h
    unfold should_send_signal
    rw [if_pos h]
  · intro hcap hne
    unfold should_send_signal
    rw [if_neg hcap, if_neg hne]
    constructor
    · intro hacc
      by_cases h : bu.conviction_score >
          minScoreOf b.daily_signals + SCORE_IMPROVEMENT_THRESHOLD
      · exact h
      · rw [if_neg h] at hacc
        exact absurd hacc (by decide)
    · intro h
      rw [if_pos h]
  · intro hcap hlen hacc
    have hne : b.daily_signals ≠ [] := by
      intro h0
      rw [h0] at hlen
      exact absurd hlen (by decide)
    have hsc : bu.conviction_score >
        minScoreOf b.daily_signals + SCORE_IMPROVEMENT_THRESHOLD := by
      unfold should_send_signal at hacc
      rw [if_neg hcap, if_neg hne] at hacc
      by_cases h : bu.conviction_score >
          minScoreOf b.daily_signals + SCORE_IMPROVEMENT_THRESHOLD
      · exact h
      · rw [if_neg h] at hacc
        exact absurd hacc (by decide)
    have hl4 : (b.daily_signals ++ [mkSignalRecord bu]).length = 4 := by
      rw [List.length_append, hlen]
      rfl
    obtain ⟨w, hwdrop, hwperm, hwmem, hwmin, hwtake⟩ :=
      sortedSplitMin (b.daily_signals ++ [mkSignalRecord bu]) hl4
    have hds : (record_signal b bu).daily_signals =
        ((b.daily_signals ++ [mkSignalRecord bu]).mergeSort scoreGe).take 3 := rfl
    obtain ⟨x0, hx0mem, hx0⟩ := minScoreOf_mem b.daily_signals hne
    have hwle : w.score ≤ minScoreOf b.daily_signals := by
      rw [hx0]
      exact hwmin x0 (List.mem_append_left _ hx0mem)
    have hthr : SCORE_IMPROVEMENT_THRESHOLD = 10 := rfl
    have hwge : minScoreOf b.daily_signals ≤ w.score := by
      rcases List.mem_append.mp hwmem with h | h
      · exact minScoreOf_le _ _ h
      · exfalso
        have hwnew : w = mkSignalRecord bu := List.mem_singleton.mp h
        have h1 : bu.conviction_score ≤ minScoreOf b.daily_signals := by
          have h2 : w.score = bu.conviction_score := by
            rw [hwnew]
            rfl
          rw [← h2]
          exact hwle
        omega
    have hweq : w.score = minScoreOf b.daily_signals := le_antisymm hwle hwge
    have hmemnew : mkSignalRecord bu ∈ (record_signal b bu).daily_signals := by
      have h1 : mkSignalRecord bu ∈ (record_signal b bu).daily_signals ++ [w] :=
        hwperm.mem_iff.mp
          (List.mem_append_right _ (List.mem_singleton_self (mkSignalRecord bu)))
      rcases List.mem_append.mp h1 with h2 | h2
      · exact h2
      · exfalso
        have hwnew : mkSignalRecord bu = w := List.mem_singleton.mp h2
        have h3 : bu.conviction_score = w.score := by
          rw [← hwnew]
          rfl
        omega
    refine ⟨w, ?_, hmemnew, ?_, hweq, rfl⟩
    · rw [hds]
      exact hwtake
    · rw [hds]
      exact hwperm

theorem spec_signal_cap_replacement_witness :
    (should_send_signal b7u bu7.conviction_score).1 = true ∧
    ((should_send_signal cb7 bu7.conviction_score).1 = true ↔
      bu7.conviction_score > minScoreOf cb7.daily_signals + SCORE_IMPROVEMENT_THRESHOLD) ∧
    (∃ w, (record_signal cb7 bu7).daily_signals.length = MAX_SIGNALS_PER_DAY ∧
      mkSignalRecord bu7 ∈ (record_signal cb7 bu7).daily_signals ∧
      (cb7.daily_signals ++ [mkSignalRecord bu7]).Perm
        ((record_signal cb7 bu7).daily_signals ++ [w]) ∧
      w.score = minScoreOf cb7.daily_signals ∧
      (record_signal cb7 bu7).signals_today = cb7.signals_today + 1) :=
  ⟨(spec_signal_cap_replacement b7u bu7).1 (by decide),
    (spec_signal_cap_replacement cb7 bu7).2.1 (by decide) (by decide),
    (spec_signal_cap_replacement cb7 bu7).2.2 (by decide) (by decide) (by decide)⟩
